import Mathlib

/-!
Verification development for the e2neutrino settings converter.

The Lean definitions below are a shallow embedding of the Python sources
under `src/e2neutrino`: each `def` mirrors one Python function or constant
table and is named after it.  Python dictionaries are modelled as ordered
association lists with Python insertion-order semantics, machine strings as
Lean `String` (compared by code point exactly as Python compares `str`),
fallible Python code (code that can raise) as `Except String`-valued
functions, and `datetime` values as an explicit record with an optional UTC
offset.  All definitions are executable.
-/

namespace PyPrim

/-- Lowercase mapping of a single ASCII character, as Python `str.lower`
acts on ASCII input (the inputs relevant here are ASCII). -/
def lowerChar (c : Char) : Char :=
  if 'A' ≤ c ∧ c ≤ 'Z' then Char.ofNat (c.toNat + 32) else c

/-- Uppercase mapping of a single ASCII character, as Python `str.upper`
acts on ASCII input. -/
def upperChar (c : Char) : Char :=
  if 'a' ≤ c ∧ c ≤ 'z' then Char.ofNat (c.toNat - 32) else c

/-- Python `str.lower` (ASCII fragment), executable by kernel reduction. -/
def strLower (s : String) : String := String.mk (s.data.map lowerChar)

/-- Python `str.upper` (ASCII fragment). -/
def strUpper (s : String) : String := String.mk (s.data.map upperChar)

/-- Characters Python `str.strip()` removes (ASCII whitespace fragment). -/
def isPyWhitespace (c : Char) : Bool :=
  c = ' ' || c = '\t' || c = '\n' || c = '\r' || c = '\x0b' || c = '\x0c'

/-- Python `str.strip()` with no argument: drop whitespace on both ends. -/
def pyStrip (s : String) : String :=
  String.mk ((s.data.dropWhile isPyWhitespace).reverse.dropWhile isPyWhitespace |>.reverse)

/-- Code-point lexicographic strict comparison of character lists; this is
exactly how Python compares two `str` values. -/
def charsLt : List Char → List Char → Bool
  | [], [] => false
  | [], _ :: _ => true
  | _ :: _, [] => false
  | a :: as, b :: bs =>
    if a.toNat < b.toNat then true
    else if b.toNat < a.toNat then false
    else charsLt as bs

/-- Python `<` on strings. -/
def strLtB (a b : String) : Bool := charsLt a.data b.data

/-- Python `str.startswith`. -/
def strStartsWith (s pre : String) : Bool := pre.data.isPrefixOf s.data

/-- Containment of `needle` in `haystack`, Python `needle in haystack`. -/
def charsContains (haystack needle : List Char) : Bool :=
  match haystack with
  | [] => needle.isEmpty
  | _ :: rest => needle.isPrefixOf haystack || charsContains rest needle

/-- Python `sub in s` on strings. -/
def strContains (s sub : String) : Bool := charsContains s.data sub.data

/-- Python `str.split(sep)` for a one-character separator: every occurrence
splits, empty pieces are kept, the empty string yields one empty piece. -/
def charsSplit (sep : Char) : List Char → List Char → List (List Char)
  | acc, [] => [acc.reverse]
  | acc, c :: rest => if c = sep then acc.reverse :: charsSplit sep [] rest else charsSplit sep (c :: acc) rest

/-- Python `s.split(sep)` for one-character `sep`. -/
def strSplit (s : String) (sep : Char) : List String :=
  (charsSplit sep [] s.data).map String.mk

/-- Truthiness of an optional Python string: `None` and the empty string are
falsy. -/
def pyTruthy : Option String → Bool
  | none => false
  | some s => s ≠ ""

/-- Python `a or b` on two optional strings (used for metadata fallbacks). -/
def pyOr (a b : Option String) : Option String := if pyTruthy a then a else b

end PyPrim

namespace PyDict

/-- Python `dict.get(k)`: first (and on the dict invariant, only) binding. -/
def find {κ α : Type} [BEq κ] (d : List (κ × α)) (k : κ) : Option α :=
  match d with
  | [] => none
  | (k0, v0) :: rest => if k0 == k then some v0 else find rest k

/-- Python `d[k] = v`: replace an existing binding in place, else append. -/
def set {κ α : Type} [BEq κ] (d : List (κ × α)) (k : κ) (v : α) : List (κ × α) :=
  match d with
  | [] => [(k, v)]
  | (k0, v0) :: rest => if k0 == k then (k, v) :: rest else (k0, v0) :: set rest k v

/-- Python `d.pop(k, None)`: remove the binding for `k`. -/
def pop {κ α : Type} [BEq κ] (d : List (κ × α)) (k : κ) : List (κ × α) :=
  d.filter (fun kv => !(kv.1 == k))

/-- Python `d.setdefault(k, v)`. -/
def setdefault {κ α : Type} [BEq κ] (d : List (κ × α)) (k : κ) (v : α) : List (κ × α) :=
  match find d k with
  | some _ => d
  | none => d ++ [(k, v)]

/-- Python `k in d`. -/
def hasKey {κ α : Type} [BEq κ] (d : List (κ × α)) (k : κ) : Bool :=
  (find d k).isSome

/-- The dict invariant: binding keys are pairwise distinct, as they are in
every Python `dict`. -/
def KeysNodup {κ α : Type} (d : List (κ × α)) : Prop := (d.map Prod.fst).Nodup

end PyDict

open PyPrim PyDict

namespace DvbCodes

/-! Shallow embedding of `src/e2neutrino/scan/dvb_codes.py`.  The Python
dict literals become association lists in the same insertion order; integer
codes are `Int`. -/

def POLARIZATION_CODES : List (String × Int) := [("H", 0), ("V", 1), ("L", 2), ("R", 3)]

def FEC_CODES : List (String × Int) :=
  [("NONE", 0), ("AUTO", 0), ("0", 0), ("1/2", 1), ("2/3", 2), ("3/4", 3), ("4/5", 4),
   ("5/6", 5), ("6/7", 6), ("7/8", 7), ("8/9", 8), ("9", 9)]

def SYSTEM_CODES : List (String × Int) :=
  [("DVB-S", 0), ("DVB-C", 0), ("DVB-T", 0), ("DVB-S2", 1), ("DVB-C2", 1), ("DVB-T2", 1)]

def MODULATION_SAT_CODES : List (String × Int) :=
  [("AUTO", 0), ("QPSK", 1), ("8PSK", 2), ("QAM16", 3)]

def CONSTELLATION_CODES : List (String × Int) :=
  [("QPSK", 0), ("QAM16", 1), ("QAM32", 2), ("QAM64", 3), ("QAM128", 4), ("QAM256", 5), ("AUTO", 6)]

def BANDWIDTH_CODES : List (Int × Int) := [(8000000, 0), (7000000, 1), (6000000, 2), (0, 3)]

/-- Embedding of `polarization_to_code`. -/
def polarization_to_code (polarization : Option String) : Int :=
  match polarization with
  | none => 0
  | some s =>
    if s = "" then 0
    else (find POLARIZATION_CODES (pyStrip (strUpper s))).getD 0

/-- Embedding of `fec_to_code`. -/
def fec_to_code (fec : Option String) : Int :=
  match fec with
  | none => 0
  | some s =>
    if s = "" then 0
    else (find FEC_CODES (pyStrip (strUpper s))).getD 0

/-- Embedding of `modulation_to_code` (delivery-dependent). -/
def modulation_to_code (modulation : Option String) (delivery : String) : Int :=
  match modulation with
  | none => if delivery = "sat" then 1 else 6
  | some s =>
    if s = "" then if delivery = "sat" then 1 else 6
    else
      let key := pyStrip (strUpper s)
      if delivery = "sat" then (find MODULATION_SAT_CODES key).getD 1
      else (find CONSTELLATION_CODES key).getD 6

/-- Embedding of `bandwidth_to_code`, including the closest-match fallback
the source applies to values absent from `BANDWIDTH_CODES`. -/
def bandwidth_to_code (bandwidth_hz : Option Int) : Int :=
  match bandwidth_hz with
  | none => 3
  | some b =>
    if b = 0 then 3
    else
      match find BANDWIDTH_CODES b with
      | some code => code
      | none =>
        if 7500000 ≤ b then 0
        else if 6500000 ≤ b then 1
        else if 5000000 ≤ b then 2
        else 3

/-- Python dict comprehension building a reverse map: later bindings of the
same value overwrite earlier ones, optionally excluding some keys. -/
def buildReverse (tbl : List (String × Int)) (excluded : List String) : List (Int × String) :=
  tbl.foldl (fun acc kv => if excluded.contains kv.1 then acc else set acc kv.2 kv.1) []

/-- Embedding of `code_to_polarization`. -/
def code_to_polarization (code : Int) : String :=
  (find (buildReverse POLARIZATION_CODES []) code).getD "H"

/-- Embedding of `code_to_fec` (the reverse comprehension drops the keys
"0", "9" and "NONE"). -/
def code_to_fec (code : Int) : String :=
  (find (buildReverse FEC_CODES ["0", "9", "NONE"]) code).getD "AUTO"

/-- Embedding of `code_to_modulation_sat`. -/
def code_to_modulation_sat (code : Int) : String :=
  (find (buildReverse MODULATION_SAT_CODES []) code).getD "QPSK"

/-- Embedding of `code_to_constellation`. -/
def code_to_constellation (code : Int) : String :=
  (find (buildReverse CONSTELLATION_CODES []) code).getD "AUTO"

/-- Embedding of `code_to_bandwidth`: the reverse direction yields the
human-readable megahertz label, not the hertz integer. -/
def code_to_bandwidth (code : Int) : String :=
  (find ([((0 : Int), "8MHz"), (1, "7MHz"), (2, "6MHz"), (3, "AUTO")]) code).getD "AUTO"

end DvbCodes

namespace DvbCodes

/-- Claim C2, counterexample: the declared FEC key "NONE" does not survive
the round trip through its integer code; it comes back as "AUTO", because
`code_to_fec` excludes "NONE" when building the reverse table and the alias
"AUTO" shares code 0. -/
theorem c2_fec_roundtrip_counterexample :
    code_to_fec (fec_to_code (some "NONE")) = "AUTO" ∧
    code_to_fec (fec_to_code (some "NONE")) ≠ "NONE" := by
  constructor <;> decide

/-- Claim C2 (amended): the code round trip holds for every polarization,
satellite-modulation and constellation key; for FEC keys it holds except for
the aliases "NONE", "0" and "9", which come back as "AUTO"; bandwidth keys
come back as the megahertz label of the value (e.g. "8MHz" for 8000000)
rather than the integer itself; and every `X_to_code` function is total,
returning its delivery-specific default for unrecognized or missing input
(with `bandwidth_to_code` mapping unknown nonzero values to the closest
bandwidth code rather than a fixed default). -/
theorem c2_code_tables_roundtrip_amended :
    (∀ kv ∈ POLARIZATION_CODES, code_to_polarization (polarization_to_code (some kv.1)) = kv.1)
    ∧ (∀ kv ∈ MODULATION_SAT_CODES, code_to_modulation_sat (modulation_to_code (some kv.1) "sat") = kv.1)
    ∧ (∀ kv ∈ CONSTELLATION_CODES, code_to_constellation (modulation_to_code (some kv.1) "cable") = kv.1)
    ∧ (∀ kv ∈ FEC_CODES, kv.1 ∉ (["NONE", "0", "9"] : List String) →
        code_to_fec (fec_to_code (some kv.1)) = kv.1)
    ∧ (∀ kv ∈ FEC_CODES, kv.1 ∈ (["NONE", "0", "9"] : List String) →
        code_to_fec (fec_to_code (some kv.1)) = "AUTO")
    ∧ (code_to_bandwidth (bandwidth_to_code (some 8000000)) = "8MHz"
        ∧ code_to_bandwidth (bandwidth_to_code (some 7000000)) = "7MHz"
        ∧ code_to_bandwidth (bandwidth_to_code (some 6000000)) = "6MHz"
        ∧ code_to_bandwidth (bandwidth_to_code (some 0)) = "AUTO")
    ∧ (polarization_to_code none = 0 ∧ fec_to_code none = 0
        ∧ modulation_to_code none "sat" = 1 ∧ modulation_to_code none "cable" = 6
        ∧ bandwidth_to_code none = 3)
    ∧ (∀ s : String, find POLARIZATION_CODES (pyStrip (strUpper s)) = none →
        polarization_to_code (some s) = 0)
    ∧ (∀ s : String, find FEC_CODES (pyStrip (strUpper s)) = none →
        fec_to_code (some s) = 0)
    ∧ (∀ s : String, find MODULATION_SAT_CODES (pyStrip (strUpper s)) = none →
        modulation_to_code (some s) "sat" = 1)
    ∧ (∀ s : String, s ≠ "" → find CONSTELLATION_CODES (pyStrip (strUpper s)) = none →
        modulation_to_code (some s) "terrestrial" = 6)
    ∧ (∀ b : Int, find BANDWIDTH_CODES b = none → b ≠ 0 →
        bandwidth_to_code (some b) =
          if 7500000 ≤ b then 0 else if 6500000 ≤ b then 1 else if 5000000 ≤ b then 2 else 3) := by
  refine ⟨by decide, by decide, by decide, by decide, by decide,
    ⟨by decide, by decide, by decide, by decide⟩,
    ⟨by decide, by decide, by decide, by decide, by decide⟩, ?_, ?_, ?_, ?_, ?_⟩
  · intro s h
    by_cases hs : s = ""
    · simp [polarization_to_code, hs]
    · simp [polarization_to_code, hs, h]
  · intro s h
    by_cases hs : s = ""
    · simp [fec_to_code, hs]
    · simp [fec_to_code, hs, h]
  · intro s h
    by_cases hs : s = ""
    · simp [modulation_to_code, hs]
    · simp [modulation_to_code, hs, h]
  · intro s hs h
    simp [modulation_to_code, hs, h]
  · intro b h hb
    simp [bandwidth_to_code, hb, h]

/-- Claim C2, witness: the amended round-trip theorem instantiated on
concrete table entries and one concrete unrecognized input. -/
theorem c2_code_tables_roundtrip_witness :
    code_to_polarization (polarization_to_code (some "V")) = "V"
    ∧ code_to_fec (fec_to_code (some "3/4")) = "3/4"
    ∧ fec_to_code (some "garbage") = 0 := by
  have h := c2_code_tables_roundtrip_amended
  exact ⟨h.1 ("V", 1) (by decide), h.2.2.2.1 ("3/4", 3) (by decide) (by decide),
    h.2.2.2.2.2.2.2.2.1 "garbage" (by decide)⟩

end DvbCodes

namespace PyDateTimeM

/-! Model of the fragment of Python `datetime` the converter uses: naive and
offset-aware values, `strptime` for the formats the source passes, the
`fromisoformat` subset the metadata timestamps use, and Python comparison
semantics (comparing a naive with an aware value raises `TypeError`). -/

/-- Python `datetime` value; `utcOffsetMinutes = none` models a naive value,
`some o` an aware value with a fixed UTC offset of `o` minutes. -/
structure PyDateTime where
  year : Nat
  month : Nat
  day : Nat
  hour : Nat
  minute : Nat
  second : Nat
  utcOffsetMinutes : Option Int
deriving DecidableEq, Repr

def isLeap (y : Nat) : Bool := y % 4 = 0 && (y % 100 ≠ 0 || y % 400 = 0)

def daysInMonth (y m : Nat) : Nat :=
  if m = 2 then (if isLeap y then 29 else 28)
  else if m = 4 ∨ m = 6 ∨ m = 9 ∨ m = 11 then 30
  else 31

/-- Days from the proleptic-Gregorian epoch 0000-03-01 (standard civil-date
algorithm, valid for the years datetime admits). -/
def civilDays (y m d : Nat) : Nat :=
  let yy := if m ≤ 2 then y - 1 else y
  let mp := if m ≤ 2 then m + 9 else m - 3
  let era := yy / 400
  let yoe := yy % 400
  let doy := (153 * mp + 2) / 5 + (d - 1)
  let doe := yoe * 365 + yoe / 4 - yoe / 100 + doy
  era * 146097 + doe

/-- Absolute instant of an aware value in seconds (UTC); for a naive value
this is its wall-clock reading (used only between two aware values). -/
def instantSeconds (dt : PyDateTime) : Int :=
  (civilDays dt.year dt.month dt.day : Int) * 86400
    + dt.hour * 3600 + dt.minute * 60 + dt.second
    - (dt.utcOffsetMinutes.getD 0) * 60

/-- Python compares two naive datetimes field by field. -/
def naiveLt (a b : PyDateTime) : Bool :=
  a.year < b.year || (a.year == b.year &&
    (a.month < b.month || (a.month == b.month &&
      (a.day < b.day || (a.day == b.day &&
        (a.hour < b.hour || (a.hour == b.hour &&
          (a.minute < b.minute || (a.minute == b.minute &&
            a.second < b.second)))))))))

/-- Python `a > b` on datetimes: naive with naive compares fields, aware
with aware compares UTC instants, mixed raises `TypeError`. -/
def pyDtGt (a b : PyDateTime) : Except String Bool :=
  match a.utcOffsetMinutes, b.utcOffsetMinutes with
  | none, none => .ok (naiveLt b a)
  | some _, some _ => .ok (instantSeconds b < instantSeconds a)
  | _, _ => .error "TypeError: cannot compare offset-naive and offset-aware datetimes"

def digit? (c : Char) : Option Nat :=
  if c.isDigit then some (c.toNat - 48) else none

def parse2Digits : List Char → Option (Nat × List Char)
  | a :: b :: rest => do
    let va ← digit? a
    let vb ← digit? b
    pure (va * 10 + vb, rest)
  | _ => none

def parse4Digits : List Char → Option (Nat × List Char)
  | a :: b :: c :: d :: rest => do
    let va ← digit? a
    let vb ← digit? b
    let vc ← digit? c
    let vd ← digit? d
    pure (va * 1000 + vb * 100 + vc * 10 + vd, rest)
  | _ => none

/-- Greedy one-or-two digit field of `strptime` (e.g. `%m`, `%d`, `%H`); the
caller range-checks the value, which matches the regex alternations of
`_strptime.TimeRE` on the fixed-separator formats used here. -/
def parse2or1 : List Char → Option (Nat × List Char)
  | a :: b :: rest =>
    match digit? a, digit? b with
    | some va, some vb => some (va * 10 + vb, rest)
    | some va, none => some (va, b :: rest)
    | none, _ => none
  | [a] => (digit? a).map (fun v => (v, []))
  | [] => none

def expectCh (c : Char) : List Char → Option (List Char)
  | x :: rest => if x = c then some rest else none
  | [] => none

/-- Fields `%Y-%m-%d` with their range checks. -/
def parseDateFields (cs : List Char) : Option (Nat × Nat × Nat × List Char) := do
  let (y, r1) ← parse4Digits cs
  let r2 ← expectCh '-' r1
  let (m, r3) ← parse2or1 r2
  if m < 1 ∨ 12 < m then none else do
  let r4 ← expectCh '-' r3
  let (d, r5) ← parse2or1 r4
  if d < 1 ∨ 31 < d then none else
  pure (y, m, d, r5)

/-- Fields `%H:%M:%S` with their range checks. -/
def parseTimeFields (cs : List Char) : Option (Nat × Nat × Nat × List Char) := do
  let (h, r1) ← parse2or1 cs
  if 23 < h then none else do
  let r2 ← expectCh ':' r1
  let (mi, r3) ← parse2or1 r2
  if 59 < mi then none else do
  let r4 ← expectCh ':' r3
  let (sec, r5) ← parse2or1 r4
  if 59 < sec then none else
  pure (h, mi, sec, r5)

/-- Field `%z`: sign, two-digit hours, optional colon, two-digit minutes, or
the literal `Z`; the offset must stay below 24 hours. -/
def parseTzOffset (cs : List Char) : Option (Int × List Char) :=
  match cs with
  | 'Z' :: rest => some (0, rest)
  | sign :: rest =>
    if sign = '+' ∨ sign = '-' then
      match parse2Digits rest with
      | none => none
      | some (hh, r1) =>
        let r2 := match r1 with
          | ':' :: r => r
          | r => r
        match parse2Digits r2 with
        | none => none
        | some (mm, r3) =>
          let total : Int := hh * 60 + mm
          if total < 1440 then
            some (if sign = '-' then -total else total, r3)
          else none
    else none
  | [] => none

/-- Constructor-stage validation of `datetime(...)`. -/
def mkValid (y m d h mi sec : Nat) (off : Option Int) : Option PyDateTime :=
  if 1 ≤ y ∧ y ≤ 9999 ∧ d ≤ daysInMonth y m then
    some ⟨y, m, d, h, mi, sec, off⟩
  else none

/-- Embedding of `datetime.strptime(value, "%Y-%m-%d")` (full match). -/
def strptimeDateOnly (s : String) : Option PyDateTime := do
  let (y, m, d, rest) ← parseDateFields s.data
  if rest ≠ [] then none else mkValid y m d 0 0 0 none

/-- Embedding of `datetime.strptime(value, "%Y-%m-%dT%H:%M:%S")`. -/
def strptimeIsoNaive (s : String) : Option PyDateTime := do
  let (y, m, d, r1) ← parseDateFields s.data
  let r2 ← expectCh 'T' r1
  let (h, mi, sec, r3) ← parseTimeFields r2
  if r3 ≠ [] then none else mkValid y m d h mi sec none

/-- Embedding of `datetime.strptime(value, "%Y-%m-%dT%H:%M:%S%z")`. -/
def strptimeIsoTz (s : String) : Option PyDateTime := do
  let (y, m, d, r1) ← parseDateFields s.data
  let r2 ← expectCh 'T' r1
  let (h, mi, sec, r3) ← parseTimeFields r2
  let (off, r4) ← parseTzOffset r3
  if r4 ≠ [] then none else mkValid y m d h mi sec (some off)

end PyDateTimeM

namespace Normalizer

open PyDateTimeM

/-- Modelled from the spec: the `TransponderScanEntry` dataclass is imported
from `e2neutrino.models` throughout the sources but its class definition is
absent from `src/e2neutrino/models.py`; the fields follow the data-model
section of the spec ("delivery system string, optional finer system string,
frequency in Hz, optional symbol rate, optional bandwidth in Hz, optional
modulation/FEC/polarization/PLP-id, optional country/provider/region,
last-seen timestamp string, source provenance string, free-form extras
map") and every construction site in the sources. -/
structure TransponderScanEntry where
  delivery_system : String
  system : Option String
  frequency_hz : Int
  symbol_rate : Option Int
  bandwidth_hz : Option Int
  modulation : Option String
  fec : Option String
  polarization : Option String
  plp_id : Option Int
  country : Option String
  provider : Option String
  region : Option String
  last_seen : Option String
  source_provenance : Option String
  extras : List (String × String)
deriving DecidableEq, Repr

/-- Truthiness of an optional Python int (`None` and `0` are falsy). -/
def intTruthy : Option Int → Bool
  | none => false
  | some v => v ≠ 0

/-- Python `a or b or 0` over optional ints, as in `_scan_identity`. -/
def symbolOrBandwidth (entry : TransponderScanEntry) : Int :=
  if intTruthy entry.symbol_rate then entry.symbol_rate.getD 0
  else if intTruthy entry.bandwidth_hz then entry.bandwidth_hz.getD 0
  else 0

/-- Embedding of `_scan_identity` from `src/e2neutrino/scan/normalizer.py`. -/
def _scan_identity (entry : TransponderScanEntry) : String :=
  let delivery := strUpper entry.delivery_system
  let scope :=
    if strStartsWith delivery "DVB-C" || (delivery == "CABLE") then
      strLower (entry.provider.getD "")
    else if strStartsWith delivery "DVB-T" || (delivery == "TERRESTRIAL") then
      strLower (entry.region.getD "")
    else
      strLower ((pyOr entry.provider entry.region).getD "")
  let modulation := strLower (entry.modulation.getD "")
  let fec := strLower (entry.fec.getD "")
  let polarization := strLower (entry.polarization.getD "")
  delivery ++ "|" ++ scope ++ "|" ++ toString entry.frequency_hz ++ "|"
    ++ toString (symbolOrBandwidth entry) ++ "|" ++ modulation ++ "|" ++ fec ++ "|" ++ polarization

/-- Embedding of `_parse_last_seen`: the three `strptime` formats tried in
order, each failure falling through to the next. -/
def _parse_last_seen (value : Option String) : Option PyDateTime :=
  match value with
  | none => none
  | some s =>
    if s = "" then none
    else
      match strptimeIsoTz s with
      | some dt => some dt
      | none =>
        match strptimeIsoNaive s with
        | some dt => some dt
        | none => strptimeDateOnly s

/-- Record of a duplicate resolution (`ScanfileDedupDecision`). -/
structure ScanfileDedupDecision where
  identity : String
  kept : TransponderScanEntry
  dropped : TransponderScanEntry
  reason : String
deriving DecidableEq, Repr

/-- Embedding of `_prefer_entry`.  The Python function returns the kept and
dropped objects; the caller then tests object identity (`keep is entry`).
The Bool in the result captures exactly that: `true` means the Python
function returned its second argument as the kept entry.  A `TypeError`
raised by the datetime comparison becomes an `Except.error`. -/
def _prefer_entry (first second : TransponderScanEntry) :
    Except String (Bool × String) :=
  let extrasCompare : Except String (Bool × String) :=
    if first.extras.length < second.extras.length then .ok (true, "more-metadata")
    else if second.extras.length < first.extras.length then .ok (false, "more-metadata")
    else .ok (false, "stable-order")
  match _parse_last_seen first.last_seen, _parse_last_seen second.last_seen with
  | some f, some s => do
    let gtSecond ← pyDtGt s f
    if gtSecond then pure (true, "newer-last-seen")
    else do
      let gtFirst ← pyDtGt f s
      if gtFirst then pure (false, "older-last-seen")
      else extrasCompare
  | none, some _ => .ok (true, "newer-last-seen")
  | some _, none => .ok (false, "older-last-seen")
  | none, none => extrasCompare

/-- Loop of `deduplicate_scan_entries`: `seen` is the identity-keyed dict,
`decisions` the duplicate-resolution log. -/
def dedupScanGo (entries : List TransponderScanEntry)
    (seen : List (String × TransponderScanEntry))
    (decisions : List ScanfileDedupDecision) :
    Except String (List TransponderScanEntry × List ScanfileDedupDecision) :=
  match entries with
  | [] => .ok (seen.map Prod.snd, decisions)
  | entry :: rest =>
    let identity := _scan_identity entry
    match find seen identity with
    | none => dedupScanGo rest (set seen identity entry) decisions
    | some existing => do
      let (keepSecond, reason) ← _prefer_entry existing entry
      let kept := if keepSecond then entry else existing
      let dropped := if keepSecond then existing else entry
      let seen2 := if keepSecond then set seen identity entry else seen
      dedupScanGo rest seen2 (decisions ++ [⟨identity, kept, dropped, reason⟩])

/-- Embedding of `deduplicate_scan_entries`. -/
def deduplicate_scan_entries (entries : List TransponderScanEntry) :
    Except String (List TransponderScanEntry × List ScanfileDedupDecision) :=
  dedupScanGo entries [] []

end Normalizer

namespace PyDict

theorem find_cons {κ α : Type} [BEq κ] (k0 : κ) (v0 : α) (tl : List (κ × α)) (k : κ) :
    find ((k0, v0) :: tl) k = if k0 == k then some v0 else find tl k := rfl

theorem set_cons {κ α : Type} [BEq κ] (k0 : κ) (v0 : α) (tl : List (κ × α)) (k : κ) (v : α) :
    PyDict.set ((k0, v0) :: tl) k v =
      if k0 == k then (k, v) :: tl else (k0, v0) :: PyDict.set tl k v := rfl

theorem find_eq_none_iff {κ α : Type} [BEq κ] [LawfulBEq κ] (d : List (κ × α)) (k : κ) :
    find d k = none ↔ k ∉ d.map Prod.fst := by
  induction d with
  | nil => simp [find]
  | cons hd tl ih =>
    obtain ⟨k0, v0⟩ := hd
    rw [find_cons]
    by_cases hb : (k0 == k) = true
    · have hk : k0 = k := eq_of_beq hb
      simp [hb, hk]
    · have hk : ¬k = k0 := fun he => hb (by simp [he])
      rw [if_neg hb]
      simp [ih, hk]

theorem set_eq_append {κ α : Type} [BEq κ] [LawfulBEq κ] {d : List (κ × α)} {k : κ} (v : α)
    (h : find d k = none) : PyDict.set d k v = d ++ [(k, v)] := by
  induction d with
  | nil => rfl
  | cons hd tl ih =>
    obtain ⟨k0, v0⟩ := hd
    rw [find_cons] at h
    by_cases hb : (k0 == k) = true
    · rw [if_pos hb] at h
      exact absurd h (by simp)
    · rw [if_neg hb] at h
      rw [set_cons, if_neg hb, List.cons_append]
      exact congrArg _ (ih h)

theorem map_fst_set_of_found {κ α : Type} [BEq κ] [LawfulBEq κ] {d : List (κ × α)} {k : κ}
    {w : α} (v : α) (h : find d k = some w) :
    (PyDict.set d k v).map Prod.fst = d.map Prod.fst := by
  induction d with
  | nil => simp [find] at h
  | cons hd tl ih =>
    obtain ⟨k0, v0⟩ := hd
    rw [find_cons] at h
    by_cases hb : (k0 == k) = true
    · have hk : k0 = k := eq_of_beq hb
      rw [set_cons, if_pos hb]
      simp [hk]
    · rw [if_neg hb] at h
      rw [set_cons, if_neg hb, List.map_cons, List.map_cons, ih h]

theorem keysNodup_set {κ α : Type} [BEq κ] [LawfulBEq κ] {d : List (κ × α)} {k : κ} (v : α)
    (h : KeysNodup d) : KeysNodup (PyDict.set d k v) := by
  cases hf : find d k with
  | none =>
    rw [KeysNodup, set_eq_append v hf, List.map_append]
    refine List.Nodup.append h (by simp) ?_
    intro a ha hb
    simp only [List.map_cons, List.map_nil, List.mem_singleton] at hb
    subst hb
    exact ((find_eq_none_iff d a).1 hf) ha
  | some w =>
    rw [KeysNodup, map_fst_set_of_found v hf]
    exact h

theorem mem_set_elim {κ α : Type} [BEq κ] [LawfulBEq κ] {d : List (κ × α)} {k a : κ}
    {v b : α} (h : (a, b) ∈ PyDict.set d k v) : (a = k ∧ b = v) ∨ (a, b) ∈ d := by
  induction d with
  | nil =>
    simp only [PyDict.set, List.mem_singleton, Prod.mk.injEq] at h
    exact Or.inl h
  | cons hd tl ih =>
    obtain ⟨k0, v0⟩ := hd
    by_cases hb : (k0 == k) = true
    · rw [set_cons, if_pos hb] at h
      rcases List.mem_cons.1 h with h | h
      · simp only [Prod.mk.injEq] at h
        exact Or.inl h
      · exact Or.inr (List.mem_cons_of_mem _ h)
    · rw [set_cons, if_neg hb] at h
      rcases List.mem_cons.1 h with h | h
      · exact Or.inr (by simp [h])
      · rcases ih h with h | h
        · exact Or.inl h
        · exact Or.inr (List.mem_cons_of_mem _ h)

theorem self_mem_set {κ α : Type} [BEq κ] [LawfulBEq κ] (d : List (κ × α)) (k : κ) (v : α) :
    (k, v) ∈ PyDict.set d k v := by
  induction d with
  | nil => simp [PyDict.set]
  | cons hd tl ih =>
    obtain ⟨k0, v0⟩ := hd
    by_cases hb : (k0 == k) = true
    · rw [set_cons, if_pos hb]
      exact List.mem_cons_self _ _
    · rw [set_cons, if_neg hb]
      exact List.mem_cons_of_mem _ ih

theorem mem_of_find_eq_some {κ α : Type} [BEq κ] [LawfulBEq κ] {d : List (κ × α)} {k : κ}
    {v : α} (h : find d k = some v) : (k, v) ∈ d := by
  induction d with
  | nil => simp [find] at h
  | cons hd tl ih =>
    obtain ⟨k0, v0⟩ := hd
    rw [find_cons] at h
    by_cases hb : (k0 == k) = true
    · have hk : k0 = k := eq_of_beq hb
      rw [if_pos hb] at h
      cases h
      exact hk ▸ List.mem_cons_self _ _
    · rw [if_neg hb] at h
      exact List.mem_cons_of_mem _ (ih h)

theorem find_eq_some_of_mem {κ α : Type} [BEq κ] [LawfulBEq κ] {d : List (κ × α)} {k : κ}
    {v : α} (hmem : (k, v) ∈ d) (hnd : KeysNodup d) : find d k = some v := by
  induction d with
  | nil => simp at hmem
  | cons hd tl ih =>
    obtain ⟨k0, v0⟩ := hd
    rw [KeysNodup, List.map_cons, List.nodup_cons] at hnd
    rcases List.mem_cons.1 hmem with h | h
    · cases h
      rw [find_cons, if_pos (by simp)]
    · by_cases hb : (k0 == k) = true
      · have hk : k0 = k := eq_of_beq hb
        exact absurd (List.mem_map_of_mem Prod.fst h) (hk ▸ hnd.1)
      · rw [find_cons, if_neg hb]
        exact ih h hnd.2

theorem mem_pop_iff {κ α : Type} [BEq κ] [LawfulBEq κ] {d : List (κ × α)} {k a : κ} {b : α} :
    (a, b) ∈ pop d k ↔ (a, b) ∈ d ∧ a ≠ k := by
  simp only [pop, List.mem_filter, Bool.not_eq_true]
  constructor
  · rintro ⟨h1, h2⟩
    refine ⟨h1, fun he => ?_⟩
    subst he
    simp at h2
  · rintro ⟨h1, h2⟩
    exact ⟨h1, by simpa using h2⟩

theorem keysNodup_pop {κ α : Type} [BEq κ] [LawfulBEq κ] {d : List (κ × α)} (k : κ)
    (h : KeysNodup d) : KeysNodup (pop d k) :=
  ((List.filter_sublist d).map Prod.fst).nodup h

theorem keysNodup_nil {κ α : Type} : KeysNodup ([] : List (κ × α)) := by
  simp [KeysNodup]

end PyDict

namespace PyDict

/-- Values of an identity-keyed dict are pairwise distinct under the keying
function: each value maps to its own key and keys are nodup. -/
theorem valuesPairwise {κ α : Type} (f : α → κ) (seen : List (κ × α))
    (hid : ∀ p ∈ seen, f p.2 = p.1) (hnd : KeysNodup seen) :
    (seen.map Prod.snd).Pairwise (fun a b => f a ≠ f b) := by
  induction seen with
  | nil => simp
  | cons hd tl ih =>
    obtain ⟨k, v⟩ := hd
    rw [KeysNodup, List.map_cons, List.nodup_cons] at hnd
    rw [List.map_cons, List.pairwise_cons]
    constructor
    · intro b hb
      rcases List.mem_map.1 hb with ⟨⟨kb, vb⟩, hmem, hsnd⟩
      have hfb : f b = kb := by
        rw [← hsnd]
        exact hid (kb, vb) (List.mem_cons_of_mem _ hmem)
      have hfv : f v = k := hid (k, v) (List.mem_cons_self _ _)
      rw [hfv, hfb]
      intro he
      apply hnd.1
      rw [he]
      exact List.mem_map.2 ⟨(kb, vb), hmem, rfl⟩
    · exact ih (fun p hp => hid p (List.mem_cons_of_mem _ hp)) hnd.2

end PyDict

namespace Normalizer

theorem dedupScanGo_cons_none (entry : TransponderScanEntry) (rest : List TransponderScanEntry)
    (seen : List (String × TransponderScanEntry)) (decisions : List ScanfileDedupDecision)
    (hfind : find seen (_scan_identity entry) = none) :
    dedupScanGo (entry :: rest) seen decisions
      = dedupScanGo rest (PyDict.set seen (_scan_identity entry) entry) decisions := by
  rw [dedupScanGo, hfind]

theorem dedupScanGo_cons_some (entry : TransponderScanEntry) (rest : List TransponderScanEntry)
    (seen : List (String × TransponderScanEntry)) (decisions : List ScanfileDedupDecision)
    {existing : TransponderScanEntry} {keepSecond : Bool} {reason : String}
    (hfind : find seen (_scan_identity entry) = some existing)
    (hpref : _prefer_entry existing entry = .ok (keepSecond, reason)) :
    dedupScanGo (entry :: rest) seen decisions
      = dedupScanGo rest
          (if keepSecond then PyDict.set seen (_scan_identity entry) entry else seen)
          (decisions ++ [⟨_scan_identity entry,
            if keepSecond then entry else existing,
            if keepSecond then existing else entry, reason⟩]) := by
  rw [dedupScanGo, hfind]
  show Except.bind (_prefer_entry existing entry) _ = _
  rw [hpref]
  cases keepSecond <;> rfl

theorem dedupScanGo_cons_error (entry : TransponderScanEntry) (rest : List TransponderScanEntry)
    (seen : List (String × TransponderScanEntry)) (decisions : List ScanfileDedupDecision)
    {existing : TransponderScanEntry} {e : String}
    (hfind : find seen (_scan_identity entry) = some existing)
    (hpref : _prefer_entry existing entry = .error e) :
    dedupScanGo (entry :: rest) seen decisions = .error e := by
  rw [dedupScanGo, hfind]
  show Except.bind (_prefer_entry existing entry) _ = _
  rw [hpref]
  rfl

/-- Invariant of the scanfile dedup loop: every binding in `seen` keys an
entry by its own scan identity, so the survivors are pairwise distinct in
identity. -/
theorem dedupScanGo_pairwise (entries : List TransponderScanEntry)
    (seen : List (String × TransponderScanEntry)) (decisions : List ScanfileDedupDecision)
    (hid : ∀ p ∈ seen, _scan_identity p.2 = p.1) (hnd : KeysNodup seen)
    {out : List TransponderScanEntry} {decs : List ScanfileDedupDecision}
    (h : dedupScanGo entries seen decisions = .ok (out, decs)) :
    out.Pairwise (fun a b => _scan_identity a ≠ _scan_identity b) := by
  induction entries generalizing seen decisions with
  | nil =>
    simp only [dedupScanGo, Except.ok.injEq, Prod.mk.injEq] at h
    rw [← h.1]
    exact PyDict.valuesPairwise _scan_identity seen hid hnd
  | cons entry rest ih =>
    have hset : ∀ p ∈ PyDict.set seen (_scan_identity entry) entry,
        _scan_identity p.2 = p.1 := by
      intro p hp
      rcases PyDict.mem_set_elim hp with he | hp2
      · obtain ⟨p1, p2⟩ := p
        simp only at he
        rw [he.1, he.2]
      · exact hid p hp2
    cases hfind : find seen (_scan_identity entry) with
    | none =>
      rw [dedupScanGo_cons_none entry rest seen decisions hfind] at h
      exact ih _ _ hset (PyDict.keysNodup_set entry hnd) h
    | some existing =>
      cases hpref : _prefer_entry existing entry with
      | error e =>
        rw [dedupScanGo_cons_error entry rest seen decisions hfind hpref] at h
        exact absurd h (by simp)
      | ok pr =>
        obtain ⟨keepSecond, reason⟩ := pr
        rw [dedupScanGo_cons_some entry rest seen decisions hfind hpref] at h
        cases keepSecond with
        | true =>
          rw [if_pos rfl] at h
          exact ih _ _ hset (PyDict.keysNodup_set entry hnd) h
        | false =>
          rw [if_neg (by simp)] at h
          exact ih _ _ hid hnd h

end Normalizer

namespace Normalizer

open PyDateTimeM

/-- Concrete cable scan entry last seen 2024-12-01 (scenario of claim C7). -/
def scanEntryOld : TransponderScanEntry :=
  { delivery_system := "DVB-C", system := none, frequency_hz := 474000000,
    symbol_rate := some 6900000, bandwidth_hz := none, modulation := some "QAM256",
    fec := none, polarization := none, plp_id := none, country := none,
    provider := some "ProviderX", region := none, last_seen := some "2024-12-01",
    source_provenance := none, extras := [] }

/-- The colliding entry last seen 2025-01-01. -/
def scanEntryNew : TransponderScanEntry := { scanEntryOld with last_seen := some "2025-01-01" }

/-- Colliding pair with one naive and one offset-aware last-seen value. -/
def scanEntryNaive : TransponderScanEntry :=
  { scanEntryOld with provider := some "ProviderY", last_seen := some "2024-12-01" }

def scanEntryAware : TransponderScanEntry :=
  { scanEntryOld with provider := some "ProviderY", last_seen := some "2025-01-01T00:00:00+0000" }

/-- Second mixed-awareness colliding pair, for the implicit claim C10. -/
def scanEntryAwareTwo : TransponderScanEntry :=
  { scanEntryOld with provider := some "ProviderZ", last_seen := some "2025-06-01T12:00:00+0200" }

def scanEntryNaiveTwo : TransponderScanEntry :=
  { scanEntryOld with provider := some "ProviderZ", last_seen := some "2024-05-01" }

/-- Claim C7, counterexample: a colliding pair whose last-seen timestamps
both parse (one as a naive date, one with a UTC offset) makes the freshness
comparison raise a `TypeError`, so no entry at all survives, although the
aware timestamp is strictly later in fact.  The claim as stated (the
strictly later parseable timestamp always wins) therefore fails here. -/
theorem c7_scan_dedup_counterexample :
    _scan_identity scanEntryNaive = _scan_identity scanEntryAware
    ∧ (_parse_last_seen scanEntryNaive.last_seen).isSome = true
    ∧ (_parse_last_seen scanEntryAware.last_seen).isSome = true
    ∧ deduplicate_scan_entries [scanEntryNaive, scanEntryAware]
        = .error "TypeError: cannot compare offset-naive and offset-aware datetimes" :=
  ⟨rfl, rfl, rfl, rfl⟩

/-- Claim C7 (amended): scanfile deduplication keeps, per scan-identity
collision, the entry with the parseable strictly later last-seen timestamp,
provided the two parsed timestamps are comparable (both naive or both
offset-aware; a mixed pair raises `TypeError` instead); an entry whose
timestamp parses beats one whose does not; with timestamps absent or equal
the entry with strictly more extras wins, else the first-seen entry is
kept; the 2024-12-01/2025-01-01 collision normalizes to exactly one
surviving entry whose last_seen is 2025-01-01; and at most one entry per
identity survives a pass. -/
theorem c7_scan_dedup_preference_amended :
    (∀ e1 e2 : TransponderScanEntry, ∀ f s : PyDateTime,
      _parse_last_seen e1.last_seen = some f → _parse_last_seen e2.last_seen = some s →
      pyDtGt s f = .ok true → _prefer_entry e1 e2 = .ok (true, "newer-last-seen"))
    ∧ (∀ e1 e2 : TransponderScanEntry, ∀ f s : PyDateTime,
      _parse_last_seen e1.last_seen = some f → _parse_last_seen e2.last_seen = some s →
      pyDtGt s f = .ok false → pyDtGt f s = .ok true →
      _prefer_entry e1 e2 = .ok (false, "older-last-seen"))
    ∧ (∀ e1 e2 : TransponderScanEntry, ∀ f s : PyDateTime,
      _parse_last_seen e1.last_seen = some f → _parse_last_seen e2.last_seen = some s →
      pyDtGt s f = .ok false → pyDtGt f s = .ok false →
      _prefer_entry e1 e2 = .ok
        (if e1.extras.length < e2.extras.length then (true, "more-metadata")
         else if e2.extras.length < e1.extras.length then (false, "more-metadata")
         else (false, "stable-order")))
    ∧ (∀ e1 e2 : TransponderScanEntry, ∀ s : PyDateTime,
      _parse_last_seen e1.last_seen = none → _parse_last_seen e2.last_seen = some s →
      _prefer_entry e1 e2 = .ok (true, "newer-last-seen"))
    ∧ (∀ e1 e2 : TransponderScanEntry, ∀ f : PyDateTime,
      _parse_last_seen e1.last_seen = some f → _parse_last_seen e2.last_seen = none →
      _prefer_entry e1 e2 = .ok (false, "older-last-seen"))
    ∧ (∀ e1 e2 : TransponderScanEntry,
      _parse_last_seen e1.last_seen = none → _parse_last_seen e2.last_seen = none →
      _prefer_entry e1 e2 = .ok
        (if e1.extras.length < e2.extras.length then (true, "more-metadata")
         else if e2.extras.length < e1.extras.length then (false, "more-metadata")
         else (false, "stable-order")))
    ∧ (deduplicate_scan_entries [scanEntryOld, scanEntryNew]
        = .ok ([scanEntryNew], [⟨_scan_identity scanEntryOld, scanEntryNew, scanEntryOld,
            "newer-last-seen"⟩])
        ∧ scanEntryNew.last_seen = some "2025-01-01")
    ∧ (∀ entries : List TransponderScanEntry,
      ∀ out : List TransponderScanEntry, ∀ decs : List ScanfileDedupDecision,
      deduplicate_scan_entries entries = .ok (out, decs) →
      out.Pairwise (fun a b => _scan_identity a ≠ _scan_identity b)) := by
  refine ⟨?_, ?_, ?_, ?_, ?_, ?_, ⟨rfl, rfl⟩, ?_⟩
  · intro e1 e2 f s h1 h2 hgt
    rw [_prefer_entry, h1, h2]
    show Except.bind (pyDtGt s f) _ = _
    rw [hgt]
    rfl
  · intro e1 e2 f s h1 h2 hgt1 hgt2
    rw [_prefer_entry, h1, h2]
    show Except.bind (pyDtGt s f) _ = _
    rw [hgt1]
    show Except.bind (pyDtGt f s) _ = _
    rw [hgt2]
    rfl
  · intro e1 e2 f s h1 h2 hgt1 hgt2
    rw [_prefer_entry, h1, h2]
    show Except.bind (pyDtGt s f) _ = _
    rw [hgt1]
    show Except.bind (pyDtGt f s) _ = _
    rw [hgt2]
    by_cases ha : e1.extras.length < e2.extras.length
    · simp [Except.bind, ha]
    · by_cases hb : e2.extras.length < e1.extras.length
      · simp [Except.bind, ha, hb]
      · simp [Except.bind, ha, hb]
  · intro e1 e2 s h1 h2
    rw [_prefer_entry, h1, h2]
  · intro e1 e2 f h1 h2
    rw [_prefer_entry, h1, h2]
  · intro e1 e2 h1 h2
    rw [_prefer_entry, h1, h2]
    by_cases ha : e1.extras.length < e2.extras.length
    · simp [ha]
    · by_cases hb : e2.extras.length < e1.extras.length
      · simp [ha, hb]
      · simp [ha, hb]
  · intro entries out decs h
    exact dedupScanGo_pairwise entries [] [] (by simp) PyDict.keysNodup_nil h

/-- Claim C7, witness: the amended preference theorem applied to the two
concrete scenario entries. -/
theorem c7_scan_dedup_preference_witness :
    _prefer_entry scanEntryOld scanEntryNew = .ok (true, "newer-last-seen") := by
  have h := c7_scan_dedup_preference_amended
  exact h.1 scanEntryOld scanEntryNew ⟨2024, 12, 1, 0, 0, 0, none⟩
    ⟨2025, 1, 1, 0, 0, 0, none⟩ rfl rfl rfl

/-- Claim C10: scanfile deduplication is not total over parseable last-seen
timestamps: one timestamp of this colliding pair parses with a UTC offset
(format with a trailing `%z`), the other as a naive date, and the freshness
comparison raises a `TypeError` instead of returning a survivor. -/
theorem c10_scan_dedup_mixed_awareness_typeerror :
    _scan_identity scanEntryAwareTwo = _scan_identity scanEntryNaiveTwo
    ∧ _parse_last_seen scanEntryAwareTwo.last_seen
        = some ⟨2025, 6, 1, 12, 0, 0, some 120⟩
    ∧ _parse_last_seen scanEntryNaiveTwo.last_seen
        = some ⟨2024, 5, 1, 0, 0, 0, none⟩
    ∧ deduplicate_scan_entries [scanEntryAwareTwo, scanEntryNaiveTwo]
        = .error "TypeError: cannot compare offset-naive and offset-aware datetimes" :=
  ⟨rfl, rfl, rfl, rfl⟩

end Normalizer

namespace PyTuple

/-- Strict lexicographic comparison of a pair, one component comparator at a
time; Python compares tuples exactly this way. -/
def pairLtB {α β : Type} [BEq α] (la : α → α → Bool) (lb : β → β → Bool) (x y : α × β) : Bool :=
  la x.1 y.1 || (x.1 == y.1 && lb x.2 y.2)

theorem pairLtB_irrefl {α β : Type} [BEq α] {la : α → α → Bool} {lb : β → β → Bool}
    (hla : ∀ a, la a a = false) (hlb : ∀ b, lb b b = false) (x : α × β) :
    pairLtB la lb x x = false := by
  simp [pairLtB, hla, hlb]

theorem pairLtB_trans {α β : Type} [BEq α] [LawfulBEq α] {la : α → α → Bool} {lb : β → β → Bool}
    (hla : ∀ a b c, la a b = true → la b c = true → la a c = true)
    (hlb : ∀ a b c, lb a b = true → lb b c = true → lb a c = true)
    {x y z : α × β} (h1 : pairLtB la lb x y = true) (h2 : pairLtB la lb y z = true) :
    pairLtB la lb x z = true := by
  simp only [pairLtB, Bool.or_eq_true, Bool.and_eq_true, beq_iff_eq] at h1 h2 ⊢
  rcases h1 with h1 | ⟨he1, h1⟩
  · rcases h2 with h2 | ⟨he2, h2⟩
    · exact Or.inl (hla _ _ _ h1 h2)
    · exact Or.inl (he2 ▸ h1)
  · rcases h2 with h2 | ⟨he2, h2⟩
    · exact Or.inl (he1 ▸ h2)
    · exact Or.inr ⟨he1.trans he2, hlb _ _ _ h1 h2⟩

theorem pairLtB_conn {α β : Type} [BEq α] [LawfulBEq α] {la : α → α → Bool} {lb : β → β → Bool}
    (hla : ∀ a b, a ≠ b → la a b = true ∨ la b a = true)
    (hlb : ∀ a b, a ≠ b → lb a b = true ∨ lb b a = true)
    {x y : α × β} (h : x ≠ y) :
    pairLtB la lb x y = true ∨ pairLtB la lb y x = true := by
  by_cases he : x.1 = y.1
  · have hb : x.2 ≠ y.2 := by
      intro h2
      exact h (Prod.ext he h2)
    rcases hlb x.2 y.2 hb with hc | hc
    · exact Or.inl (by simp [pairLtB, he, hc])
    · exact Or.inr (by simp [pairLtB, he.symm, hc])
  · rcases hla x.1 y.1 he with hc | hc
    · exact Or.inl (by simp [pairLtB, hc])
    · exact Or.inr (by simp [pairLtB, hc])

/-- Boolean strict order on Int. -/
def intLtB (a b : Int) : Bool := decide (a < b)

theorem intLtB_irrefl (a : Int) : intLtB a a = false := by simp [intLtB]

theorem intLtB_trans (a b c : Int) (h1 : intLtB a b = true) (h2 : intLtB b c = true) :
    intLtB a c = true := by
  simp only [intLtB, decide_eq_true_eq] at h1 h2 ⊢
  omega

theorem intLtB_conn (a b : Int) (h : a ≠ b) : intLtB a b = true ∨ intLtB b a = true := by
  simp only [intLtB, decide_eq_true_eq]
  omega

end PyTuple

namespace PyPrim

theorem charsLt_irrefl (as : List Char) : charsLt as as = false := by
  induction as with
  | nil => rfl
  | cons a tl ih => simp [charsLt, ih]

theorem charsLt_trans (as bs cs : List Char) (h1 : charsLt as bs = true)
    (h2 : charsLt bs cs = true) : charsLt as cs = true := by
  induction as generalizing bs cs with
  | nil =>
    cases cs with
    | nil =>
      cases bs with
      | nil => exact h1
      | cons b tb => simp [charsLt] at h2
    | cons c tc => rfl
  | cons a ta ih =>
    cases bs with
    | nil => simp [charsLt] at h1
    | cons b tb =>
      cases cs with
      | nil => simp [charsLt] at h2
      | cons c tc =>
        simp only [charsLt] at h1 h2 ⊢
        by_cases hab : a.toNat < b.toNat
        · by_cases hbc : b.toNat < c.toNat
          · rw [if_pos (by omega)]
          · rw [if_neg hbc] at h2
            by_cases hcb : c.toNat < b.toNat
            · simp [hcb] at h2
            · rw [if_pos (by omega)]
        · rw [if_neg hab] at h1
          by_cases hba : b.toNat < a.toNat
          · simp [hba] at h1
          · have hab2 : a.toNat = b.toNat := by omega
            by_cases hbc : b.toNat < c.toNat
            · rw [if_pos (by omega)]
            · rw [if_neg hbc] at h2
              by_cases hcb : c.toNat < b.toNat
              · simp [hcb] at h2
              · rw [if_neg hba] at h1
                rw [if_neg hcb] at h2
                rw [if_neg (by omega), if_neg (by omega)]
                exact ih tb tc h1 h2

theorem charsLt_conn (as bs : List Char) (h : as ≠ bs) :
    charsLt as bs = true ∨ charsLt bs as = true := by
  induction as generalizing bs with
  | nil =>
    cases bs with
    | nil => exact absurd rfl h
    | cons b tb => exact Or.inl rfl
  | cons a ta ih =>
    cases bs with
    | nil => exact Or.inr rfl
    | cons b tb =>
      by_cases hab : a.toNat < b.toNat
      · exact Or.inl (by simp [charsLt, hab])
      · by_cases hba : b.toNat < a.toNat
        · exact Or.inr (by simp [charsLt, hba])
        · have hchar : a = b := by
            have : a.toNat = b.toNat := by omega
            exact Char.ext (by
              have h1 : a.val.toNat = b.val.toNat := this
              exact UInt32.ext h1)
          subst hchar
          have htl : ta ≠ tb := by
            intro he
            exact h (by rw [he])
          rcases ih tb htl with hc | hc
          · exact Or.inl (by simp [charsLt, hc])
          · exact Or.inr (by simp [charsLt, hc])

theorem strLtB_irrefl (s : String) : strLtB s s = false := charsLt_irrefl s.data

theorem strLtB_trans (a b c : String) (h1 : strLtB a b = true) (h2 : strLtB b c = true) :
    strLtB a c = true := charsLt_trans a.data b.data c.data h1 h2

theorem strLtB_conn (a b : String) (h : a ≠ b) : strLtB a b = true ∨ strLtB b a = true :=
  charsLt_conn a.data b.data (fun he => h (by
    cases a with
    | mk da =>
      cases b with
      | mk db => exact congrArg String.mk he))

end PyPrim

namespace PyDict

theorem mem_set_of_ne {κ α : Type} [BEq κ] [LawfulBEq κ] {d : List (κ × α)} {k a : κ}
    {v b : α} (hmem : (a, b) ∈ d) (hne : a ≠ k) : (a, b) ∈ PyDict.set d k v := by
  induction d with
  | nil => simp at hmem
  | cons hd tl ih =>
    obtain ⟨k0, v0⟩ := hd
    by_cases hb : (k0 == k) = true
    · rw [set_cons, if_pos hb]
      have hk : k0 = k := eq_of_beq hb
      rcases List.mem_cons.1 hmem with h | h
      · cases h
        exact absurd hk hne
      · exact List.mem_cons_of_mem _ h
    · rw [set_cons, if_neg hb]
      rcases List.mem_cons.1 hmem with h | h
      · exact h ▸ List.mem_cons_self _ _
      · exact List.mem_cons_of_mem _ (ih h)

theorem mem_unique {κ α : Type} [BEq κ] [LawfulBEq κ] {d : List (κ × α)} {k : κ} {a b : α}
    (hnd : KeysNodup d) (ha : (k, a) ∈ d) (hb : (k, b) ∈ d) : a = b := by
  have h1 := find_eq_some_of_mem ha hnd
  have h2 := find_eq_some_of_mem hb hnd
  rw [h1] at h2
  exact Option.some.inj h2

end PyDict

namespace Converter

open PyTuple

/-! Shallow embedding of the data model (`src/e2neutrino/models.py`) and the
merge/deduplication stage of `src/e2neutrino/converter.py`. -/

/-- The `Transponder` dataclass.  The Python field `namespace` is spelled
`namespace_` because `namespace` is a Lean keyword. -/
structure Transponder where
  key : String
  delivery : String
  frequency : Int
  symbol_rate : Option Int
  polarization : Option String
  fec : Option String
  system : Option String
  modulation : Option String
  orbital_position : Option Int
  network_id : Int
  transport_stream_id : Int
  namespace_ : Int
  extra : List (String × String)
deriving DecidableEq, Repr

/-- The `Service` dataclass (field `namespace` spelled `namespace_`). -/
structure Service where
  key : String
  name : String
  service_type : Int
  service_id : Int
  transponder_key : String
  original_network_id : Int
  transport_stream_id : Int
  namespace_ : Int
  provider : Option String
  caids : List Int
  is_radio : Bool
  extra : List (String × String)
deriving DecidableEq, Repr

/-- The `BouquetEntry` dataclass. -/
structure BouquetEntry where
  service_ref : String
  name : Option String
deriving DecidableEq, Repr

/-- The `Bouquet` dataclass (`source_path` kept as an opaque string). -/
structure Bouquet where
  name : String
  entries : List BouquetEntry
  category : String
  source_path : Option String
deriving DecidableEq, Repr

/-- The `Profile` dataclass: insertion-ordered dicts of services and
transponders, the bouquet list and the string metadata map. -/
structure Profile where
  services : List (String × Service)
  transponders : List (String × Transponder)
  bouquets : List Bouquet
  metadata : List (String × String)
deriving DecidableEq, Repr

/-- Score vector of `_score_service`: a Python 5-tuple
(priority, -freshness, provider penalty, -name length, service key). -/
abbrev Score : Type := Int × Int × Int × Int × String

/-- Python `<` on the score 5-tuples. -/
def scoreLtB : Score → Score → Bool :=
  pairLtB intLtB (pairLtB intLtB (pairLtB intLtB (pairLtB intLtB strLtB)))

theorem scoreLtB_irrefl (a : Score) : scoreLtB a a = false := by
  refine pairLtB_irrefl intLtB_irrefl (fun b => ?_) a
  refine pairLtB_irrefl intLtB_irrefl (fun b => ?_) b
  refine pairLtB_irrefl intLtB_irrefl (fun b => ?_) b
  exact pairLtB_irrefl intLtB_irrefl strLtB_irrefl b

theorem scoreLtB_trans {a b c : Score} (h1 : scoreLtB a b = true) (h2 : scoreLtB b c = true) :
    scoreLtB a c = true := by
  refine pairLtB_trans intLtB_trans (fun x y z hx hy => ?_) h1 h2
  refine pairLtB_trans intLtB_trans (fun x y z hx hy => ?_) hx hy
  refine pairLtB_trans intLtB_trans (fun x y z hx hy => ?_) hx hy
  exact pairLtB_trans intLtB_trans strLtB_trans hx hy

theorem scoreLtB_conn {a b : Score} (h : a ≠ b) :
    scoreLtB a b = true ∨ scoreLtB b a = true := by
  refine pairLtB_conn intLtB_conn (fun x y hx => ?_) h
  refine pairLtB_conn intLtB_conn (fun x y hx => ?_) hx
  refine pairLtB_conn intLtB_conn (fun x y hx => ?_) hx
  exact pairLtB_conn intLtB_conn strLtB_conn hx

theorem scoreLtB_asymm {a b : Score} (h : scoreLtB a b = true) : scoreLtB b a = false := by
  by_contra hc
  have hba : scoreLtB b a = true := by
    cases hh : scoreLtB b a with
    | true => rfl
    | false => exact absurd hh hc
  have := scoreLtB_trans h hba
  rw [scoreLtB_irrefl] at this
  exact Bool.noConfusion this

/-- Embedding of `_service_identity`.  The source hashes the payload string
with SHA-1 and uses only the hex digest's equality; the digest is modelled
by the payload itself, which determines it (the model identifies colliding
digests of distinct payloads, which the converter treats as distinct in all
but astronomically unlikely cases). -/
def _service_identity (service : Service) : String :=
  toString service.original_network_id ++ ":" ++ toString service.transport_stream_id ++ ":"
    ++ toString service.service_id ++ ":" ++ toString service.namespace_ ++ ":"
    ++ toString service.service_type

/-- Embedding of `_score_service`. -/
def _score_service (service : Service) (priority freshness_score : Int) : Score :=
  (priority, -freshness_score,
   if pyTruthy service.provider then 0 else 1,
   if service.name = "" then 0 else -(Int.ofNat (pyStrip service.name).length),
   service.key)

/-- The `DeduplicationRecord` dataclass. -/
structure DeduplicationRecord where
  identity : String
  kept : Service
  dropped : Service
deriving DecidableEq, Repr

/-- State of the `_deduplicate_profile` loop: the identity-keyed candidate
dict, the rebuilt service dict and the removal log. -/
structure DedupState where
  candidates : List (String × (String × Service × Score))
  newServices : List (String × Service)
  removed : List DeduplicationRecord
deriving Repr

/-- One iteration of the loop body of `_deduplicate_profile`. -/
def _deduplicate_step (priority freshness_score : Int) (st : DedupState)
    (kv : String × Service) : DedupState :=
  let key := kv.1
  let service := kv.2
  let identity := _service_identity service
  let score := _score_service service priority freshness_score
  match find st.candidates identity with
  | none =>
    { candidates := PyDict.set st.candidates identity (key, service, score)
      newServices := PyDict.set st.newServices key service
      removed := st.removed }
  | some (keptKey, keptService, keptScore) =>
    if scoreLtB score keptScore then
      { candidates := PyDict.set st.candidates identity (key, service, score)
        newServices := PyDict.set (pop st.newServices keptKey) key service
        removed := st.removed ++ [⟨identity, service, keptService⟩] }
    else
      { st with removed := st.removed ++ [⟨identity, keptService, service⟩] }

/-- The service loop of `_deduplicate_profile` over `profile.services.items()`.
The per-profile constants `priority` (from `int(metadata.get("source_priority",
"100"))`) and `freshness_score` (from the parsed `last_seen` metadata or the
current time) are passed in; they are computed once per profile and are the
same for every service of the loop. -/
def _deduplicate_services (services : List (String × Service))
    (priority freshness_score : Int) : DedupState :=
  services.foldl (_deduplicate_step priority freshness_score) ⟨[], [], []⟩

/-- Hex digit value, as `int(_, 16)` accepts. -/
def hexDigitVal (c : Char) : Option Nat :=
  if '0' ≤ c ∧ c ≤ '9' then some (c.toNat - 48)
  else if 'a' ≤ c ∧ c ≤ 'f' then some (c.toNat - 87)
  else if 'A' ≤ c ∧ c ≤ 'F' then some (c.toNat - 55)
  else none

def hexDigitsVal : List Char → Option Nat
  | [] => none
  | [c] => hexDigitVal c
  | c :: rest => do
    let v ← hexDigitVal c
    let r ← hexDigitsVal rest
    pure (v * 16 ^ rest.length + r)

/-- Python `int(s, 16)`: optional surrounding whitespace and sign and `0x`
prefix, then hex digits (digit-group underscores are not modelled; none of
the service references contain them). -/
def pyIntHex (s : String) : Option Int :=
  let cs := (pyStrip s).data
  let signed : Bool × List Char :=
    match cs with
    | '-' :: rest => (true, rest)
    | '+' :: rest => (false, rest)
    | rest => (false, rest)
  let trimmed :=
    match signed.2 with
    | '0' :: 'x' :: rest => rest
    | '0' :: 'X' :: rest => rest
    | rest => rest
  match hexDigitsVal trimmed with
  | none => none
  | some v => some (if signed.1 then -(v : Int) else (v : Int))

def hexChar (n : Nat) : Char :=
  if n < 10 then Char.ofNat (48 + n) else Char.ofNat (87 + n)

def natToHexAux : Nat → Nat → List Char
  | 0, _ => []
  | fuel + 1, n => if n = 0 then [] else natToHexAux fuel (n / 16) ++ [hexChar (n % 16)]

/-- Lowercase hex digits of a natural number. -/
def natToHex (n : Nat) : String :=
  if n = 0 then "0" else String.mk (natToHexAux (n + 1) n)

/-- Python `"{:04x}".format(i)`: zero-padded to total width 4, the sign
included in the width. -/
def format04x (i : Int) : String :=
  let core := natToHex i.natAbs
  let pad := fun (w : Nat) (s : String) =>
    String.mk (List.replicate (w - s.data.length) '0') ++ s
  if i < 0 then "-" ++ pad 3 core else pad 4 core

/-- Embedding of `_service_ref_to_key`. -/
def _service_ref_to_key (service_ref : String) : String :=
  let parts := strSplit service_ref ':'
  if parts.length < 7 then service_ref
  else
    let sid := (pyIntHex (parts.getD 3 "")).getD 0
    strLower (parts.getD 6 "") ++ ":" ++ strLower (parts.getD 4 "") ++ ":"
      ++ strLower (parts.getD 5 "") ++ ":" ++ format04x sid

/-- Embedding of `_deduplicate_profile`: run the dedup loop, install the
surviving services, drop bouquet entries whose reference no longer resolves
to a surviving key, drop bouquets left empty, and record the service count. -/
def _deduplicate_profile (profile : Profile) (priority freshness_score : Int) :
    Profile × List DeduplicationRecord :=
  let st := _deduplicate_services profile.services priority freshness_score
  let validKeys := st.newServices.map Prod.fst
  let prunedBouquets :=
    (profile.bouquets.map (fun b =>
      let keptEntries := b.entries.filter
        (fun e => validKeys.contains (_service_ref_to_key e.service_ref))
      { b with entries := keptEntries })).filter
      (fun b => !b.entries.isEmpty)
  ({ profile with
      services := st.newServices
      bouquets := prunedBouquets
      metadata := PyDict.set profile.metadata "service_count"
        (toString st.newServices.length) },
   st.removed)

end Converter

namespace PyDict

theorem mem_set_iff {κ α : Type} [BEq κ] [LawfulBEq κ] {d : List (κ × α)} {k a : κ}
    {v b : α} (hnd : KeysNodup d) :
    (a, b) ∈ PyDict.set d k v ↔ (a = k ∧ b = v) ∨ ((a, b) ∈ d ∧ a ≠ k) := by
  induction d with
  | nil =>
    simp only [PyDict.set, List.mem_singleton, Prod.mk.injEq, List.not_mem_nil, false_and,
      or_false]
  | cons hd tl ih =>
    obtain ⟨k0, v0⟩ := hd
    rw [KeysNodup, List.map_cons, List.nodup_cons] at hnd
    by_cases hb : (k0 == k) = true
    · have hk : k0 = k := eq_of_beq hb
      rw [set_cons, if_pos hb]
      constructor
      · intro h
        rcases List.mem_cons.1 h with h | h
        · exact Or.inl (by simpa [Prod.ext_iff] using h)
        · refine Or.inr ⟨List.mem_cons_of_mem _ h, fun he => ?_⟩
          exact hnd.1 (hk ▸ he ▸ List.mem_map.2 ⟨(a, b), h, rfl⟩)
      · rintro (⟨he1, he2⟩ | ⟨hmem, hne⟩)
        · exact he1 ▸ he2 ▸ List.mem_cons_self _ _
        · rcases List.mem_cons.1 hmem with h | h
          · have h2 : a = k0 ∧ b = v0 := by simpa [Prod.ext_iff] using h
            exact absurd h2.1 (hk ▸ hne)
          · exact List.mem_cons_of_mem _ h
    · have hk : k0 ≠ k := fun he => hb (by simp [he])
      rw [set_cons, if_neg hb]
      constructor
      · intro h
        rcases List.mem_cons.1 h with h | h
        · have h2 : a = k0 ∧ b = v0 := by simpa [Prod.ext_iff] using h
          exact Or.inr ⟨by simp [h2.1, h2.2], h2.1 ▸ hk⟩
        · rcases (ih hnd.2).1 h with h | ⟨hmem, hne⟩
          · exact Or.inl h
          · exact Or.inr ⟨List.mem_cons_of_mem _ hmem, hne⟩
      · rintro (⟨he1, he2⟩ | ⟨hmem, hne⟩)
        · exact List.mem_cons_of_mem _ ((ih hnd.2).2 (Or.inl ⟨he1, he2⟩))
        · rcases List.mem_cons.1 hmem with h | h
          · exact h ▸ List.mem_cons_self _ _
          · exact List.mem_cons_of_mem _ ((ih hnd.2).2 (Or.inr ⟨h, hne⟩))

end PyDict

namespace Converter

theorem dedup_step_none (p f : Int) (st : DedupState) (q : String × Service)
    (hfind : find st.candidates (_service_identity q.2) = none) :
    _deduplicate_step p f st q =
      { candidates := PyDict.set st.candidates (_service_identity q.2)
          (q.1, q.2, _score_service q.2 p f)
        newServices := PyDict.set st.newServices q.1 q.2
        removed := st.removed } := by
  obtain ⟨k, s⟩ := q
  simp only [_deduplicate_step]
  rw [hfind]

theorem dedup_step_some_lt (p f : Int) (st : DedupState) (q : String × Service)
    {kk : String} {ks : Service} {ksc : Score}
    (hfind : find st.candidates (_service_identity q.2) = some (kk, ks, ksc))
    (hlt : scoreLtB (_score_service q.2 p f) ksc = true) :
    _deduplicate_step p f st q =
      { candidates := PyDict.set st.candidates (_service_identity q.2)
          (q.1, q.2, _score_service q.2 p f)
        newServices := PyDict.set (pop st.newServices kk) q.1 q.2
        removed := st.removed ++ [⟨_service_identity q.2, q.2, ks⟩] } := by
  obtain ⟨k, s⟩ := q
  simp only [_deduplicate_step]
  rw [hfind]
  simp only [hlt, if_pos]

theorem dedup_step_some_ge (p f : Int) (st : DedupState) (q : String × Service)
    {kk : String} {ks : Service} {ksc : Score}
    (hfind : find st.candidates (_service_identity q.2) = some (kk, ks, ksc))
    (hlt : scoreLtB (_score_service q.2 p f) ksc = false) :
    _deduplicate_step p f st q =
      { st with removed := st.removed ++ [⟨_service_identity q.2, ks, q.2⟩] } := by
  obtain ⟨k, s⟩ := q
  simp only [_deduplicate_step]
  rw [hfind]
  simp only [hlt]
  rfl

end Converter

namespace Converter

/-- Loop invariant of `_deduplicate_profile` after processing the prefix `l`
of the service dict: the candidate dict holds, per identity, a processed
entrant of that identity carrying its score, no processed entrant of the
identity scores strictly lower, `new_services` holds exactly the candidate
entrants, and the removal log accounts for every processed entrant that is
not currently kept. -/
def DedupInv (l : List (String × Service)) (p f : Int) (st : DedupState) : Prop :=
  (∀ i k s sc, (i, (k, s, sc)) ∈ st.candidates →
     _service_identity s = i ∧ sc = _score_service s p f ∧ (k, s) ∈ l ∧
     ∀ q ∈ l, _service_identity q.2 = i →
       scoreLtB (_score_service q.2 p f) sc = false)
  ∧ (∀ q ∈ l, ∃ e, (_service_identity q.2, e) ∈ st.candidates)
  ∧ KeysNodup st.candidates
  ∧ KeysNodup st.newServices
  ∧ (∀ k s, (k, s) ∈ st.newServices ↔
      ∃ sc, (_service_identity s, (k, s, sc)) ∈ st.candidates)
  ∧ (∀ r ∈ st.removed,
      _service_identity r.kept = r.identity ∧ _service_identity r.dropped = r.identity ∧
      (∃ k, (k, r.kept) ∈ l) ∧ (∃ k, (k, r.dropped) ∈ l) ∧
      scoreLtB (_score_service r.dropped p f) (_score_service r.kept p f) = false)
  ∧ (∀ q ∈ l, q ∈ st.newServices ∨
      ∃ r ∈ st.removed, r.dropped = q.2 ∧ r.identity = _service_identity q.2)

theorem dedupInv_nil (p f : Int) : DedupInv [] p f ⟨[], [], []⟩ := by
  refine ⟨?_, ?_, ?_, ?_, ?_, ?_, ?_⟩ <;> simp [KeysNodup]

theorem dedupInv_step (l : List (String × Service)) (q : String × Service) (p f : Int)
    (hnd : KeysNodup (l ++ [q])) (st : DedupState) (hInv : DedupInv l p f st) :
    DedupInv (l ++ [q]) p f (_deduplicate_step p f st q) := by
  obtain ⟨hc, hcov, hcnd, hnnd, hns, hrem, hacc⟩ := hInv
  obtain ⟨qk, qs⟩ := q
  rw [KeysNodup, List.map_append, List.nodup_append] at hnd
  have hndl : KeysNodup l := hnd.1
  have hkfresh : qk ∉ l.map Prod.fst := by
    intro hmem
    exact hnd.2.2 hmem (by simp)
  have hmeml : ∀ kx sx, (kx, sx) ∈ st.newServices → (kx, sx) ∈ l := by
    intro kx sx hmem
    rcases (hns kx sx).1 hmem with ⟨scx, hmem2⟩
    exact (hc _ _ _ _ hmem2).2.2.1
  have hkeyne : ∀ kx sx, (kx, sx) ∈ l → kx ≠ qk := by
    intro kx sx hmem he
    exact hkfresh (he ▸ List.mem_map.2 ⟨(kx, sx), hmem, rfl⟩)
  cases hfind : find st.candidates (_service_identity qs) with
  | none =>
    have hnoi : ∀ q2 ∈ l, _service_identity q2.2 ≠ _service_identity qs := by
      intro q2 hq2 he
      rcases hcov q2 hq2 with ⟨e, hmem⟩
      rw [he] at hmem
      exact (find_eq_none_iff st.candidates (_service_identity qs)).1 hfind
        (List.mem_map.2 ⟨_, hmem, rfl⟩)
    rw [dedup_step_none p f st (qk, qs) hfind]
    refine ⟨?_, ?_, ?_, ?_, ?_, ?_, ?_⟩
    · intro ix kx sx scx hmem
      rcases PyDict.mem_set_iff hcnd |>.1 hmem with ⟨he1, he2⟩ | ⟨hold, hne⟩
      · have hek : qk = kx := (congrArg Prod.fst he2).symm
        have hes : qs = sx := (congrArg (fun t => t.2.1) he2).symm
        subst hek hes
        have hesc : scx = _score_service qs p f := congrArg (fun t => t.2.2) he2
        subst hesc he1
        refine ⟨rfl, rfl, List.mem_append_right _ (by simp), ?_⟩
        intro q2 hq2 hid
        rcases List.mem_append.1 hq2 with hq2 | hq2
        · exact absurd hid (hnoi q2 hq2)
        · have hq3 : q2 = (qk, qs) := by simpa using hq2
          subst hq3
          exact scoreLtB_irrefl _
      · obtain ⟨h1, h2, h3, h4⟩ := hc ix kx sx scx hold
        refine ⟨h1, h2, List.mem_append_left _ h3, ?_⟩
        intro q2 hq2 hid
        rcases List.mem_append.1 hq2 with hq2 | hq2
        · exact h4 q2 hq2 hid
        · have hq3 : q2 = (qk, qs) := by simpa using hq2
          subst hq3
          exact absurd hid.symm hne
    · intro q2 hq2
      rcases List.mem_append.1 hq2 with hq2 | hq2
      · rcases hcov q2 hq2 with ⟨e, hmem⟩
        exact ⟨e, PyDict.mem_set_of_ne hmem (hnoi q2 hq2)⟩
      · have hq3 : q2 = (qk, qs) := by simpa using hq2
        subst hq3
        exact ⟨(qk, qs, _score_service qs p f), PyDict.self_mem_set _ _ _⟩
    · exact PyDict.keysNodup_set _ hcnd
    · exact PyDict.keysNodup_set _ hnnd
    · intro kx sx
      constructor
      · intro hmem
        rcases PyDict.mem_set_iff hnnd |>.1 hmem with ⟨he1, he2⟩ | ⟨hold, hne⟩
        · have he1b : qk = kx := he1.symm
          have he2b : qs = sx := he2.symm
          subst he1b he2b
          exact ⟨_score_service qs p f, PyDict.self_mem_set _ _ _⟩
        · rcases (hns kx sx).1 hold with ⟨scx, hmem2⟩
          have hinl : (kx, sx) ∈ l := (hc _ _ _ _ hmem2).2.2.1
          exact ⟨scx, PyDict.mem_set_of_ne hmem2 (hnoi (kx, sx) hinl)⟩
      · rintro ⟨scx, hmem⟩
        rcases PyDict.mem_set_iff hcnd |>.1 hmem with ⟨he1, he2⟩ | ⟨hold, hne⟩
        · have hek : qk = kx := (congrArg Prod.fst he2).symm
          have hes : qs = sx := (congrArg (fun t => t.2.1) he2).symm
          subst hek hes
          exact PyDict.self_mem_set _ _ _
        · have hold2 : (kx, sx) ∈ st.newServices := (hns kx sx).2 ⟨scx, hold⟩
          exact PyDict.mem_set_of_ne hold2 (hkeyne kx sx (hmeml kx sx hold2))
    · intro r hr
      obtain ⟨h1, h2, ⟨k3, h3⟩, ⟨k4, h4⟩, h5⟩ := hrem r hr
      exact ⟨h1, h2, ⟨k3, List.mem_append_left _ h3⟩, ⟨k4, List.mem_append_left _ h4⟩, h5⟩
    · intro q2 hq2
      rcases List.mem_append.1 hq2 with hq2 | hq2
      · rcases hacc q2 hq2 with hkept | ⟨r, hr, hd⟩
        · obtain ⟨kx, sx⟩ := q2
          exact Or.inl (PyDict.mem_set_of_ne hkept (hkeyne kx sx hq2))
        · exact Or.inr ⟨r, hr, hd⟩
      · have hq3 : q2 = (qk, qs) := by simpa using hq2
        subst hq3
        exact Or.inl (PyDict.self_mem_set _ _ _)
  | some e =>
    obtain ⟨kk, ks, ksc⟩ := e
    have hex : (_service_identity qs, (kk, ks, ksc)) ∈ st.candidates :=
      PyDict.mem_of_find_eq_some hfind
    obtain ⟨hid_ks, hksc, hksl, hkmin⟩ := hc _ _ _ _ hex
    have hkkmem : (kk, ks) ∈ st.newServices := (hns kk ks).2 ⟨ksc, hid_ks ▸ hex⟩
    cases hlt : scoreLtB (_score_service qs p f) ksc with
    | true =>
      rw [dedup_step_some_lt p f st (qk, qs) hfind hlt]
      refine ⟨?_, ?_, ?_, ?_, ?_, ?_, ?_⟩
      · intro ix kx sx scx hmem
        rcases PyDict.mem_set_iff hcnd |>.1 hmem with ⟨he1, he2⟩ | ⟨hold, hne⟩
        · have hek : qk = kx := (congrArg Prod.fst he2).symm
          have hes : qs = sx := (congrArg (fun t => t.2.1) he2).symm
          subst hek hes
          have hesc : scx = _score_service qs p f := congrArg (fun t => t.2.2) he2
          subst hesc he1
          refine ⟨rfl, rfl, List.mem_append_right _ (by simp), ?_⟩
          intro q2 hq2 hid
          rcases List.mem_append.1 hq2 with hq2 | hq2
          · cases hq3 : scoreLtB (_score_service q2.2 p f) (_score_service qs p f) with
            | false => rfl
            | true =>
              have htr := scoreLtB_trans hq3 hlt
              rw [hkmin q2 hq2 hid] at htr
              exact Bool.noConfusion htr
          · have hq3 : q2 = (qk, qs) := by simpa using hq2
            subst hq3
            exact scoreLtB_irrefl _
        · obtain ⟨h1, h2, h3, h4⟩ := hc ix kx sx scx hold
          refine ⟨h1, h2, List.mem_append_left _ h3, ?_⟩
          intro q2 hq2 hid
          rcases List.mem_append.1 hq2 with hq2 | hq2
          · exact h4 q2 hq2 hid
          · have hq3 : q2 = (qk, qs) := by simpa using hq2
            subst hq3
            exact absurd hid.symm hne
      · intro q2 hq2
        rcases List.mem_append.1 hq2 with hq2 | hq2
        · rcases hcov q2 hq2 with ⟨e2, hmem⟩
          by_cases hie : _service_identity q2.2 = _service_identity qs
          · exact ⟨(qk, qs, _score_service qs p f), hie ▸ PyDict.self_mem_set _ _ _⟩
          · exact ⟨e2, PyDict.mem_set_of_ne hmem hie⟩
        · have hq3 : q2 = (qk, qs) := by simpa using hq2
          subst hq3
          exact ⟨(qk, qs, _score_service qs p f), PyDict.self_mem_set _ _ _⟩
      · exact PyDict.keysNodup_set _ hcnd
      · exact PyDict.keysNodup_set _ (PyDict.keysNodup_pop kk hnnd)
      · intro kx sx
        constructor
        · intro hmem
          rcases PyDict.mem_set_iff (PyDict.keysNodup_pop kk hnnd) |>.1 hmem with
            ⟨he1, he2⟩ | ⟨hold, hne⟩
          · have he1b : qk = kx := he1.symm
            have he2b : qs = sx := he2.symm
            subst he1b he2b
            exact ⟨_score_service qs p f, PyDict.self_mem_set _ _ _⟩
          · have hpop := PyDict.mem_pop_iff.1 hold
            rcases (hns kx sx).1 hpop.1 with ⟨scx, hmem2⟩
            have hie : _service_identity sx ≠ _service_identity qs := by
              intro he
              have huni := PyDict.mem_unique hcnd (he ▸ hmem2) hex
              exact hpop.2 (congrArg Prod.fst huni)
            exact ⟨scx, PyDict.mem_set_of_ne hmem2 hie⟩
        · rintro ⟨scx, hmem⟩
          rcases PyDict.mem_set_iff hcnd |>.1 hmem with ⟨he1, he2⟩ | ⟨hold, hne⟩
          · have hek : qk = kx := (congrArg Prod.fst he2).symm
            have hes : qs = sx := (congrArg (fun t => t.2.1) he2).symm
            subst hek hes
            exact PyDict.self_mem_set _ _ _
          · have hold2 : (kx, sx) ∈ st.newServices := (hns kx sx).2 ⟨scx, hold⟩
            have hkxkk : kx ≠ kk := by
              intro he
              have hu : sx = ks := PyDict.mem_unique hnnd (he ▸ hold2) hkkmem
              exact hne (hu ▸ hid_ks)
            have hpop : (kx, sx) ∈ pop st.newServices kk :=
              PyDict.mem_pop_iff.2 ⟨hold2, hkxkk⟩
            exact PyDict.mem_set_of_ne hpop (hkeyne kx sx (hmeml kx sx hold2))
      · intro r hr
        rcases List.mem_append.1 hr with hr | hr
        · obtain ⟨h1, h2, ⟨k3, h3⟩, ⟨k4, h4⟩, h5⟩ := hrem r hr
          exact ⟨h1, h2, ⟨k3, List.mem_append_left _ h3⟩, ⟨k4, List.mem_append_left _ h4⟩, h5⟩
        · have hq3 : r = ⟨_service_identity qs, qs, ks⟩ := by simpa using hr
          subst hq3
          refine ⟨rfl, hid_ks, ⟨qk, List.mem_append_right _ (by simp)⟩,
            ⟨kk, List.mem_append_left _ hksl⟩, ?_⟩
          rw [← hksc]
          exact scoreLtB_asymm hlt
      · intro q2 hq2
        rcases List.mem_append.1 hq2 with hq2 | hq2
        · rcases hacc q2 hq2 with hkept | ⟨r, hr, hd⟩
          · obtain ⟨kx, sx⟩ := q2
            by_cases hkxkk : kx = kk
            · subst hkxkk
              have hs2 : sx = ks := PyDict.mem_unique hnnd hkept hkkmem
              subst hs2
              exact Or.inr ⟨⟨_service_identity qs, qs, sx⟩,
                List.mem_append_right _ (by simp), rfl, hid_ks.symm⟩
            · have hpop : (kx, sx) ∈ pop st.newServices kk :=
                PyDict.mem_pop_iff.2 ⟨hkept, hkxkk⟩
              exact Or.inl (PyDict.mem_set_of_ne hpop (hkeyne kx sx hq2))
          · exact Or.inr ⟨r, List.mem_append_left _ hr, hd⟩
        · have hq3 : q2 = (qk, qs) := by simpa using hq2
          subst hq3
          exact Or.inl (PyDict.self_mem_set _ _ _)
    | false =>
      rw [dedup_step_some_ge p f st (qk, qs) hfind hlt]
      refine ⟨?_, ?_, ?_, ?_, ?_, ?_, ?_⟩
      · intro ix kx sx scx hmem
        obtain ⟨h1, h2, h3, h4⟩ := hc ix kx sx scx hmem
        refine ⟨h1, h2, List.mem_append_left _ h3, ?_⟩
        intro q2 hq2 hid
        rcases List.mem_append.1 hq2 with hq2 | hq2
        · exact h4 q2 hq2 hid
        · have hq3 : q2 = (qk, qs) := by simpa using hq2
          subst hq3
          have hie : ix = _service_identity qs := hid.symm
          subst hie
          have huni := PyDict.mem_unique hcnd hmem hex
          have hsc2 : scx = ksc := congrArg (fun t => t.2.2) huni
          rw [hsc2]
          exact hlt
      · intro q2 hq2
        rcases List.mem_append.1 hq2 with hq2 | hq2
        · exact hcov q2 hq2
        · have hq3 : q2 = (qk, qs) := by simpa using hq2
          subst hq3
          exact ⟨(kk, ks, ksc), hex⟩
      · exact hcnd
      · exact hnnd
      · exact hns
      · intro r hr
        rcases List.mem_append.1 hr with hr | hr
        · obtain ⟨h1, h2, ⟨k3, h3⟩, ⟨k4, h4⟩, h5⟩ := hrem r hr
          exact ⟨h1, h2, ⟨k3, List.mem_append_left _ h3⟩, ⟨k4, List.mem_append_left _ h4⟩, h5⟩
        · have hq3 : r = ⟨_service_identity qs, ks, qs⟩ := by simpa using hr
          subst hq3
          refine ⟨hid_ks, rfl, ⟨kk, List.mem_append_left _ hksl⟩,
            ⟨qk, List.mem_append_right _ (by simp)⟩, ?_⟩
          rw [← hksc]
          exact hlt
      · intro q2 hq2
        rcases List.mem_append.1 hq2 with hq2 | hq2
        · rcases hacc q2 hq2 with hkept | ⟨r, hr, hd⟩
          · exact Or.inl hkept
          · exact Or.inr ⟨r, List.mem_append_left _ hr, hd⟩
        · have hq3 : q2 = (qk, qs) := by simpa using hq2
          subst hq3
          exact Or.inr ⟨⟨_service_identity qs, ks, qs⟩,
            List.mem_append_right _ (by simp), rfl, rfl⟩

/-- The invariant holds of the full run of the dedup loop. -/
theorem dedupInv_run (l : List (String × Service)) (p f : Int) (hnd : KeysNodup l) :
    DedupInv l p f (_deduplicate_services l p f) := by
  induction l using List.reverseRecOn with
  | nil => exact dedupInv_nil p f
  | append_singleton l q ih =>
    have hndl : KeysNodup l := by
      rw [KeysNodup, List.map_append, List.nodup_append] at hnd
      exact hnd.1
    have hfold : _deduplicate_services (l ++ [q]) p f
        = _deduplicate_step p f (_deduplicate_services l p f) q := by
      simp [_deduplicate_services, List.foldl_append]
    rw [hfold]
    exact dedupInv_step l q p f hnd _ (ih hndl)

end Converter

namespace Converter

/-- The dict discipline every parser follows: a profile maps each service
key to the service carrying that key (spec section 3, "map of Service by
key"). -/
def Coherent (l : List (String × Service)) : Prop := ∀ q ∈ l, q.1 = q.2.key

theorem scores_distinct {l : List (String × Service)} {p f : Int}
    (hnd : KeysNodup l) (hcoh : Coherent l) {q1 q2 : String × Service}
    (h1 : q1 ∈ l) (h2 : q2 ∈ l) (hne : q1 ≠ q2) :
    _score_service q1.2 p f ≠ _score_service q2.2 p f := by
  obtain ⟨k1, s1⟩ := q1
  obtain ⟨k2, s2⟩ := q2
  have hk : k1 ≠ k2 := by
    intro he
    subst he
    exact hne (by rw [PyDict.mem_unique hnd h1 h2])
  intro hsc
  have hkey : s1.key = s2.key := congrArg (fun sc : Score => sc.2.2.2.2) hsc
  exact hk ((hcoh (k1, s1) h1).trans (hkey.trans (hcoh (k2, s2) h2).symm))

/-- The kept entrant of an identity group is exactly its strict score
minimum (unique because scores embed the service key). -/
theorem kept_iff_min (l : List (String × Service)) (p f : Int)
    (hnd : KeysNodup l) (hcoh : Coherent l) (k : String) (s : Service) :
    (k, s) ∈ (_deduplicate_services l p f).newServices ↔
      (k, s) ∈ l ∧ ∀ q ∈ l, _service_identity q.2 = _service_identity s →
        q ≠ (k, s) → scoreLtB (_score_service s p f) (_score_service q.2 p f) = true := by
  obtain ⟨hc, hcov, hcnd, hnnd, hns, hrem, hacc⟩ := dedupInv_run l p f hnd
  constructor
  · intro hmem
    rcases (hns k s).1 hmem with ⟨sc, hcand⟩
    obtain ⟨hid, hsc, hinl, hmin⟩ := hc _ _ _ _ hcand
    refine ⟨hinl, ?_⟩
    intro q hq hqid hqne
    have hdiff : _score_service s p f ≠ _score_service q.2 p f := by
      have hne2 : ((k, s) : String × Service) ≠ q := fun he2 => hqne he2.symm
      exact scores_distinct (p := p) (f := f) hnd hcoh hinl hq hne2
    rcases scoreLtB_conn hdiff with hcase | hcase
    · exact hcase
    · rw [hsc] at hmin
      rw [hmin q hq hqid] at hcase
      exact Bool.noConfusion hcase
  · rintro ⟨hmem, hminStrict⟩
    rcases hcov (k, s) hmem with ⟨e, hecand⟩
    obtain ⟨k0, s0, sc0⟩ := e
    obtain ⟨hid0, hsc0, hinl0, hmin0⟩ := hc _ _ _ _ hecand
    by_cases heq : (k0, s0) = (k, s)
    · have hk0 : k = k0 := (congrArg Prod.fst heq).symm
      have hs0 : s = s0 := (congrArg Prod.snd heq).symm
      subst hk0 hs0
      exact (hns k s).2 ⟨sc0, hecand⟩
    · have hlt := hminStrict (k0, s0) hinl0 hid0 heq
      have hge := hmin0 (k, s) hmem rfl
      rw [hsc0] at hge
      rw [hge] at hlt
      exact Bool.noConfusion hlt

end Converter

namespace PyDict

instance {κ α : Type} [DecidableEq κ] (d : List (κ × α)) : Decidable (KeysNodup d) := by
  unfold KeysNodup
  infer_instance

end PyDict

namespace Converter

/-- Claim C4: within every identity group of the service dict, the kept
service scores no worse than every group member (the score vector being
(priority asc, freshness desc, has-provider asc, trimmed-name-length desc,
service key asc)), the strict score minimum of a group is the kept service,
every losing entrant appears as the dropped service of a dedup record
carrying the group identity, and every record carries group members as kept
and dropped with the kept scoring no worse than the dropped. -/
theorem c4_dedup_keeps_minimal_and_records_losers :
    ∀ (services : List (String × Service)) (priority freshness_score : Int),
    KeysNodup services → Coherent services →
    (∀ k s, (k, s) ∈ (_deduplicate_services services priority freshness_score).newServices →
      ∀ q ∈ services, _service_identity q.2 = _service_identity s →
        scoreLtB (_score_service q.2 priority freshness_score)
          (_score_service s priority freshness_score) = false)
    ∧ (∀ k s, (k, s) ∈ services →
      (∀ q ∈ services, _service_identity q.2 = _service_identity s → q ≠ (k, s) →
        scoreLtB (_score_service s priority freshness_score)
          (_score_service q.2 priority freshness_score) = true) →
      (k, s) ∈ (_deduplicate_services services priority freshness_score).newServices)
    ∧ (∀ q ∈ services,
      q ∉ (_deduplicate_services services priority freshness_score).newServices →
      ∃ r ∈ (_deduplicate_services services priority freshness_score).removed,
        r.identity = _service_identity q.2 ∧ r.dropped = q.2)
    ∧ (∀ r ∈ (_deduplicate_services services priority freshness_score).removed,
      _service_identity r.kept = r.identity ∧ _service_identity r.dropped = r.identity ∧
      (∃ k, (k, r.kept) ∈ services) ∧ (∃ k, (k, r.dropped) ∈ services) ∧
      scoreLtB (_score_service r.dropped priority freshness_score)
        (_score_service r.kept priority freshness_score) = false) := by
  intro services priority freshness_score hnd hcoh
  obtain ⟨hc, hcov, hcnd, hnnd, hns, hrem, hacc⟩ := dedupInv_run services priority freshness_score hnd
  refine ⟨?_, ?_, ?_, ?_⟩
  · intro k s hmem q hq hqid
    rcases (hns k s).1 hmem with ⟨sc, hcand⟩
    obtain ⟨hid, hsc, hinl, hmin⟩ := hc _ _ _ _ hcand
    rw [hsc] at hmin
    exact hmin q hq hqid
  · intro k s hmem hstrict
    exact (kept_iff_min services priority freshness_score hnd hcoh k s).2 ⟨hmem, hstrict⟩
  · intro q hq hnotkept
    rcases hacc q hq with hkept | ⟨r, hr, hd, hi⟩
    · exact absurd hkept hnotkept
    · exact ⟨r, hr, hi, hd⟩
  · intro r hr
    exact hrem r hr

/-- Concrete fixtures: two services with the same dedup identity; the first
has a provider and therefore the smaller score vector. -/
def svcWithProvider : Service :=
  { key := "k1", name := "Alpha", service_type := 1, service_id := 1,
    transponder_key := "t", original_network_id := 1, transport_stream_id := 2,
    namespace_ := 3, provider := some "Prov", caids := [], is_radio := false, extra := [] }

def svcNoProvider : Service := { svcWithProvider with key := "k2", provider := none }

/-- Claim C4, witness: on the two-service fixture the providerless entrant
loses; the theorem's strict-minimum clause puts the provider-carrying
service in the kept dict. -/
theorem c4_dedup_keeps_minimal_witness :
    ("k1", svcWithProvider) ∈
      (_deduplicate_services [("k1", svcWithProvider), ("k2", svcNoProvider)] 100 0).newServices := by
  have h := c4_dedup_keeps_minimal_and_records_losers
    [("k1", svcWithProvider), ("k2", svcNoProvider)] 100 0 (by decide)
    (by intro q hq; fin_cases hq <;> rfl)
  exact h.2.1 "k1" svcWithProvider (by decide) (by decide)

/-- Claim C5: the kept set of the merge deduplication is order-independent:
permuting the service dict (keys distinct, each service stored under its
own key) leaves the set of kept (key, service) pairs unchanged. -/
theorem c5_dedup_order_independent :
    ∀ (l l2 : List (String × Service)) (priority freshness_score : Int),
    l.Perm l2 → KeysNodup l → Coherent l →
    ∀ ks : String × Service,
      ks ∈ (_deduplicate_services l priority freshness_score).newServices ↔
      ks ∈ (_deduplicate_services l2 priority freshness_score).newServices := by
  intro l l2 priority freshness_score hperm hnd hcoh ks
  have hnd2 : KeysNodup l2 := ((hperm.map Prod.fst).nodup_iff).1 hnd
  have hcoh2 : Coherent l2 := fun q hq => hcoh q (hperm.mem_iff.2 hq)
  obtain ⟨k, s⟩ := ks
  rw [kept_iff_min l priority freshness_score hnd hcoh k s,
    kept_iff_min l2 priority freshness_score hnd2 hcoh2 k s]
  constructor
  · rintro ⟨hmem, hmin⟩
    exact ⟨hperm.mem_iff.1 hmem, fun q hq => hmin q (hperm.mem_iff.2 hq)⟩
  · rintro ⟨hmem, hmin⟩
    exact ⟨hperm.mem_iff.2 hmem, fun q hq => hmin q (hperm.mem_iff.1 hq)⟩

/-- Claim C5, witness: the two orders of the concrete two-service dict keep
the same pairs. -/
theorem c5_dedup_order_independent_witness :
    (("k1", svcWithProvider) ∈
      (_deduplicate_services [("k1", svcWithProvider), ("k2", svcNoProvider)] 100 0).newServices) ↔
    (("k1", svcWithProvider) ∈
      (_deduplicate_services [("k2", svcNoProvider), ("k1", svcWithProvider)] 100 0).newServices) := by
  exact c5_dedup_order_independent
    [("k1", svcWithProvider), ("k2", svcNoProvider)]
    [("k2", svcNoProvider), ("k1", svcWithProvider)] 100 0
    (List.Perm.swap ("k2", svcNoProvider) ("k1", svcWithProvider) [])
    (by decide) (by intro q hq; fin_cases hq <;> rfl) ("k1", svcWithProvider)

end Converter

namespace Converter

/-- The bouquet-entry retention test of `_deduplicate_profile`: the entry
reference resolves to a surviving service key. -/
def entryResolves (newServices : List (String × Service)) (e : BouquetEntry) : Bool :=
  (newServices.map Prod.fst).contains (_service_ref_to_key e.service_ref)

theorem dedup_profile_unfold (profile : Profile) (priority freshness_score : Int) :
    _deduplicate_profile profile priority freshness_score =
      (let st := _deduplicate_services profile.services priority freshness_score
       ({ profile with
          services := st.newServices
          bouquets := (profile.bouquets.map (fun b =>
            { b with entries := b.entries.filter (entryResolves st.newServices) })).filter
            (fun b => !b.entries.isEmpty)
          metadata := PyDict.set profile.metadata "service_count"
            (toString st.newServices.length) }, st.removed)) := rfl

/-- Claim C6: after deduplication at most one service per identity remains;
every surviving bouquet is non-empty; every surviving bouquet entry
resolves to a surviving service key; each surviving bouquet is one of the
original bouquets with exactly its resolving entries kept in order; and
every original bouquet with at least one resolving entry survives. -/
theorem c6_dedup_profile_invariants :
    ∀ (profile : Profile) (priority freshness_score : Int),
    KeysNodup profile.services →
    (∀ e1 ∈ (_deduplicate_profile profile priority freshness_score).1.services,
     ∀ e2 ∈ (_deduplicate_profile profile priority freshness_score).1.services,
      _service_identity e1.2 = _service_identity e2.2 → e1 = e2)
    ∧ (∀ b ∈ (_deduplicate_profile profile priority freshness_score).1.bouquets,
      b.entries ≠ [])
    ∧ (∀ b ∈ (_deduplicate_profile profile priority freshness_score).1.bouquets,
      ∀ en ∈ b.entries, (_service_ref_to_key en.service_ref) ∈
        (_deduplicate_profile profile priority freshness_score).1.services.map Prod.fst)
    ∧ (∀ b ∈ (_deduplicate_profile profile priority freshness_score).1.bouquets,
      ∃ b0 ∈ profile.bouquets, b.name = b0.name ∧ b.category = b0.category ∧
        b.entries = b0.entries.filter (entryResolves
          (_deduplicate_profile profile priority freshness_score).1.services))
    ∧ (∀ b0 ∈ profile.bouquets,
      (∃ en ∈ b0.entries, entryResolves
          (_deduplicate_profile profile priority freshness_score).1.services en = true) →
      ∃ b ∈ (_deduplicate_profile profile priority freshness_score).1.bouquets,
        b.name = b0.name ∧ b.entries = b0.entries.filter (entryResolves
          (_deduplicate_profile profile priority freshness_score).1.services)) := by
  intro profile priority freshness_score hnd
  obtain ⟨hc, hcov, hcnd, hnnd, hns, hrem, hacc⟩ :=
    dedupInv_run profile.services priority freshness_score hnd
  rw [dedup_profile_unfold]
  refine ⟨?_, ?_, ?_, ?_, ?_⟩
  · rintro ⟨k1, s1⟩ hm1 ⟨k2, s2⟩ hm2 hid
    rcases (hns k1 s1).1 hm1 with ⟨sc1, hc1⟩
    rcases (hns k2 s2).1 hm2 with ⟨sc2, hc2⟩
    rw [hid] at hc1
    have huni := PyDict.mem_unique hcnd hc1 hc2
    have hk : k1 = k2 := congrArg Prod.fst huni
    have hs : s1 = s2 := congrArg (fun t => t.2.1) huni
    rw [hk, hs]
  · intro b hb
    have hmem := List.mem_filter.1 hb
    intro he
    rw [he] at hmem
    simp at hmem
  · intro b hb en hen
    have hmem := List.mem_filter.1 hb
    rcases List.mem_map.1 hmem.1 with ⟨b0, hb0, hbe⟩
    rw [← hbe] at hen
    have hres := (List.mem_filter.1 hen).2
    simpa [entryResolves, List.contains_iff_exists_mem_beq] using hres
  · intro b hb
    have hmem := List.mem_filter.1 hb
    rcases List.mem_map.1 hmem.1 with ⟨b0, hb0, hbe⟩
    exact ⟨b0, hb0, by rw [← hbe], by rw [← hbe], by rw [← hbe]⟩
  · intro b0 hb0 ⟨en, hen, hres⟩
    refine ⟨{ b0 with entries := b0.entries.filter (entryResolves _) }, ?_, rfl, rfl⟩
    refine List.mem_filter.2 ⟨List.mem_map.2 ⟨b0, hb0, rfl⟩, ?_⟩
    have : en ∈ b0.entries.filter (entryResolves
        (_deduplicate_services profile.services priority freshness_score).newServices) :=
      List.mem_filter.2 ⟨hen, hres⟩
    cases hfe : b0.entries.filter (entryResolves
        (_deduplicate_services profile.services priority freshness_score).newServices) with
    | nil => rw [hfe] at this; simp at this
    | cons x xs => simp [hfe]

end Converter

namespace Converter

/-- Concrete profile: two same-identity services and two bouquets, the
second referencing only the losing service. -/
def profileC6 : Profile :=
  { services := [("k1", svcWithProvider), ("k2", svcNoProvider)]
    transponders := []
    bouquets := [⟨"Fav", [⟨"k1", none⟩, ⟨"k2", none⟩], "tv", none⟩,
                 ⟨"Old", [⟨"k2", none⟩], "tv", none⟩]
    metadata := [] }

/-- Claim C6, witness: the invariant theorem applied to the concrete
profile (its service keys are distinct, and every surviving bouquet of
the concrete run is non-empty). -/
theorem c6_dedup_profile_invariants_witness :
    KeysNodup profileC6.services ∧
      (_deduplicate_profile profileC6 100 0).1.bouquets.all
        (fun b => !b.entries.isEmpty) = true := by
  have h := (c6_dedup_profile_invariants profileC6 100 0 (by decide)).2.1
  refine ⟨by decide, List.all_eq_true.2 ?_⟩
  intro b hb
  simp [List.isEmpty_eq_false.2 (h b hb)]

end Converter

namespace M3u

open Converter

/-! Shallow embedding of `src/e2neutrino/adapters/m3u.py`.  The result of
`urllib.parse.urlparse` on a stream line is the library boundary and is
carried on the line itself; `urlparse` lowercases `hostname`, and the
source lowercases it again. -/

/-- Parse result of `urllib.parse.urlparse` for a stream line. -/
structure ParsedUrl where
  scheme : String
  hostname : Option String
  path : String
deriving DecidableEq, Repr

/-- One stripped line of an M3U playlist, as `_parse_m3u` dispatches on it:
an `#EXTINF` line carrying the attribute map `_parse_extinf` extracts, any
other comment (or blank, which the loop also skips), or a stream line with
its raw text and URL parse. -/
inductive M3uLine
  | extinf (meta : List (String × String))
  | comment
  | stream (url : ParsedUrl) (raw : String)
deriving DecidableEq, Repr

/-- Embedding of `_clean_text`: drop NUL characters and strip; the NFC
normalization is the identity on the ASCII fragment modelled here. -/
def _clean_text : Option String → String
  | none => ""
  | some v => pyStrip (String.mk (v.data.filter (fun c => c ≠ Char.ofNat 0)))

def isLowerAlnum (c : Char) : Bool :=
  ('a' ≤ c && c ≤ 'z') || ('0' ≤ c && c ≤ '9')

/-- Run-collapsing replacement of `re.sub("[^a-z0-9]+", "_", _)`: the flag
records whether the previous character already opened a replaced run. -/
def slugAux : Bool → List Char → List Char
  | _, [] => []
  | inRun, c :: rest =>
    if isLowerAlnum c then c :: slugAux false rest
    else if inRun then slugAux true rest
    else '_' :: slugAux true rest

/-- Embedding of `_slugify`. -/
def _slugify (value : String) : String :=
  let collapsed := slugAux false (strLower value).data
  let stripped := ((collapsed.dropWhile (· = '_')).reverse.dropWhile (· = '_')).reverse
  if stripped.isEmpty then "group" else String.mk stripped

/-- Python `"{:08x}".format(i)`. -/
def format08x (i : Int) : String :=
  let core := natToHex i.natAbs
  let pad := fun (w : Nat) (s : String) =>
    String.mk (List.replicate (w - s.data.length) '0') ++ s
  if i < 0 then "-" ++ pad 7 core else pad 8 core

/-- Embedding of `_build_service_ref`. -/
def _build_service_ref (service : Service) : String :=
  String.intercalate ":"
    ["1", "0", toString service.service_type, format04x service.service_id,
     format04x service.transport_stream_id, format04x service.original_network_id,
     format08x service.namespace_, "0", "0", "0", ""]

/-- Python `int(s)` in base 10 (underscore digit grouping not modelled;
the playlist attribute values carry none). -/
def pyIntDec (s : String) : Except String Int :=
  let cs := (pyStrip s).data
  let signed : Bool × List Char :=
    match cs with
    | '-' :: rest => (true, rest)
    | '+' :: rest => (false, rest)
    | rest => (false, rest)
  if signed.2 ≠ [] ∧ signed.2.all Char.isDigit then
    let v : Nat := signed.2.foldl (fun acc c => acc * 10 + (c.toNat - 48)) 0
    .ok (if signed.1 then -(v : Int) else (v : Int))
  else
    .error ("invalid literal for int with base 10: " ++ s)

/-- Embedding of `_validate_stream_url`. -/
def _validate_stream_url (url : ParsedUrl) (allowed_domains : List String) :
    Except String ParsedUrl :=
  if ¬(url.scheme = "http" ∨ url.scheme = "https") then
    .error ("m3u entry uses unsupported scheme " ++ url.scheme)
  else
    let host := strLower (url.hostname.getD "")
    if strStartsWith host "127." || strStartsWith host "10."
        || strStartsWith host "192.168." || strStartsWith host "172." then
      .error "m3u entry points to private or loopback address"
    else if !allowed_domains.isEmpty && !(allowed_domains.contains host) then
      .error ("m3u entry host " ++ host ++ " not in allowed_domains")
    else if strContains (strLower url.path) "get.php" then
      .error "m3u entry matches blocked pattern get.php"
    else .ok url

/-- Loop state of `_parse_m3u`: the three dicts under construction plus the
pending metadata of the current entry and the running service counter. -/
structure M3uState where
  services : List (String × Service)
  transponders : List (String × Transponder)
  bouquets : List (String × Bouquet)
  currentName : Option String
  currentMeta : List (String × String)
  serviceCounter : Int
deriving Repr

def initialM3uState : M3uState := ⟨[], [], [], none, [], 1⟩

def mkM3uTransponder (trans_key : String) (counter : Int) : Transponder :=
  { key := trans_key, delivery := "cable", frequency := counter, symbol_rate := none,
    polarization := none, fec := none, system := none, modulation := none,
    orbital_position := none, network_id := counter, transport_stream_id := counter,
    namespace_ := counter, extra := [] }

/-- One iteration of the `_parse_m3u` line loop. -/
def m3uStep (allowed_domains : List String) (default_provider : String)
    (st : M3uState) (line : M3uLine) : Except String M3uState :=
  match line with
  | .extinf meta =>
    let newName := some (_clean_text (pyOr (find meta "tvg-name") (find meta "name")))
    .ok { st with currentMeta := meta, currentName := newName }
  | .comment => .ok st
  | .stream url raw => do
    let currentName :=
      if pyTruthy st.currentName then st.currentName else some (_clean_text (some raw))
    let parsed_url ← _validate_stream_url url allowed_domains
    let group_title := _clean_text (pyOr (find st.currentMeta "group-title") (some "M3U"))
    let trans_key := "m3u:" ++ _slugify group_title
    let transponders :=
      if hasKey st.transponders trans_key then st.transponders
      else PyDict.set st.transponders trans_key (mkM3uTransponder trans_key st.serviceCounter)
    let service_key := trans_key ++ ":" ++ format04x st.serviceCounter
    let provider_name :=
      let cleaned := _clean_text (find st.currentMeta "provider")
      if cleaned ≠ "" then cleaned else default_provider
    let service_type ← pyIntDec ((find st.currentMeta "service-type").getD "1")
    let extra0 := st.currentMeta.filter
      (fun kv => !(["name", "tvg-name", "group-title", "provider"].contains kv.1))
    let extra1 := PyDict.set extra0 "stream_host" (parsed_url.hostname.getD "")
    let extra2 := PyDict.set extra1 "stream_scheme" parsed_url.scheme
    let service : Service :=
      { key := service_key, name := currentName.getD "", service_type := service_type,
        service_id := st.serviceCounter, transponder_key := trans_key,
        original_network_id := st.serviceCounter, transport_stream_id := st.serviceCounter,
        namespace_ := st.serviceCounter, provider := some provider_name, caids := [],
        is_radio := (find st.currentMeta "radio" == some "1"), extra := extra2 }
    let entry : BouquetEntry := ⟨_build_service_ref service, some (currentName.getD "")⟩
    let bouquets :=
      match find st.bouquets group_title with
      | some b => PyDict.set st.bouquets group_title { b with entries := b.entries ++ [entry] }
      | none => st.bouquets ++ [(group_title, ⟨group_title, [entry], "tv", none⟩)]
    .ok { services := PyDict.set st.services service_key service,
          transponders := transponders, bouquets := bouquets, currentName := none,
          currentMeta := [], serviceCounter := st.serviceCounter + 1 }

def parseM3uGo (allowed_domains : List String) (default_provider : String) :
    List M3uLine → M3uState → Except String M3uState
  | [], st => .ok st
  | line :: rest, st => do
    let st2 ← m3uStep allowed_domains default_provider st line
    parseM3uGo allowed_domains default_provider rest st2

/-- Embedding of `_parse_m3u` over the stripped, dispatched lines of the
playlist file at `source_path`. -/
def _parse_m3u (source_path : String) (lines : List M3uLine)
    (allowed_domains : List String) (default_provider : String) :
    Except String Profile :=
  if allowed_domains.isEmpty then
    .error "m3u adapter requires allowed_domains list for official validation"
  else do
    let st ← parseM3uGo allowed_domains default_provider lines initialM3uState
    .ok { services := st.services, transponders := st.transponders,
          bouquets := st.bouquets.map Prod.snd,
          metadata := [("source_path", source_path), ("format", "m3u")] }

end M3u

namespace M3u

/-- The hard-refusal conditions of claim C3: loopback or 192.168-private
host, host outside the configured allow-list, or a blocked get.php path. -/
def blockedStreamUrl (url : ParsedUrl) (allowed_domains : List String) : Prop :=
  strStartsWith (strLower (url.hostname.getD "")) "127." = true
  ∨ strStartsWith (strLower (url.hostname.getD "")) "192.168." = true
  ∨ strLower (url.hostname.getD "") ∉ allowed_domains
  ∨ strContains (strLower url.path) "get.php" = true

theorem validate_blocked (url : ParsedUrl) (allowed_domains : List String)
    (hne : allowed_domains ≠ []) (hblocked : blockedStreamUrl url allowed_domains) :
    ∃ msg, _validate_stream_url url allowed_domains = .error msg := by
  simp only [_validate_stream_url]
  split_ifs with h1 h2 h3 h4
  · exact ⟨_, rfl⟩
  · exact ⟨_, rfl⟩
  · exact ⟨_, rfl⟩
  · exfalso
    rcases hblocked with hb | hb | hb | hb
    · exact h2 (by rw [hb]; rfl)
    · exact h2 (by rw [hb]; simp)
    · apply hb
      have hie : allowed_domains.isEmpty = false := by
        cases allowed_domains with
        | nil => exact absurd rfl hne
        | cons a tl => rfl
      rw [hie] at h3
      simp only [Bool.not_false, Bool.true_and, Bool.not_eq_true, Bool.not_eq_false] at h3
      have h3b : allowed_domains.contains (strLower (url.hostname.getD "")) = true := by
        simpa using h3
      rcases List.contains_iff_exists_mem_beq.1 h3b with ⟨y, hy, hbeq⟩
      rw [eq_of_beq hbeq]
      exact hy
    · exact h4 hb
  · exact ⟨_, rfl⟩

theorem parseM3uGo_cons (allowed_domains : List String) (default_provider : String)
    (line : M3uLine) (rest : List M3uLine) (st : M3uState) :
    parseM3uGo allowed_domains default_provider (line :: rest) st
      = Except.bind (m3uStep allowed_domains default_provider st line)
          (fun st2 => parseM3uGo allowed_domains default_provider rest st2) := rfl

theorem m3uStep_stream_error (allowed_domains : List String) (default_provider : String)
    (st : M3uState) (url : ParsedUrl) (raw : String) {msg : String}
    (hval : _validate_stream_url url allowed_domains = .error msg) :
    m3uStep allowed_domains default_provider st (.stream url raw) = .error msg := by
  show Except.bind (_validate_stream_url url allowed_domains) _ = _
  rw [hval]
  rfl

theorem parseM3uGo_error (allowed_domains : List String) (default_provider : String)
    (url : ParsedUrl) (raw : String) (hne : allowed_domains ≠ [])
    (hblocked : blockedStreamUrl url allowed_domains) :
    ∀ lines : List M3uLine, M3uLine.stream url raw ∈ lines →
    ∀ st : M3uState, ∃ msg,
      parseM3uGo allowed_domains default_provider lines st = .error msg := by
  intro lines
  induction lines with
  | nil =>
    intro hmem
    simp at hmem
  | cons line rest ih =>
    intro hmem st
    rcases List.mem_cons.1 hmem with h | h
    · rcases validate_blocked url allowed_domains hne hblocked with ⟨msg, hval⟩
      refine ⟨msg, ?_⟩
      rw [parseM3uGo_cons, ← h, m3uStep_stream_error allowed_domains default_provider st url raw hval]
      rfl
    · cases hstep : m3uStep allowed_domains default_provider st line with
      | error e =>
        refine ⟨e, ?_⟩
        rw [parseM3uGo_cons, hstep]
        rfl
      | ok st2 =>
        rcases ih h st2 with ⟨msg, hrest⟩
        refine ⟨msg, ?_⟩
        rw [parseM3uGo_cons, hstep]
        exact hrest

/-- Claim C3: an M3U playlist containing a stream line whose URL has a
loopback (127.x) or private (192.168.x) host, or a host outside the
configured allow-list, or a get.php path, makes ingestion raise; the parse
returns an error and produces no profile and hence zero services. -/
theorem c3_m3u_blocked_url_rejected :
    ∀ (source_path : String) (lines : List M3uLine) (allowed_domains : List String)
      (default_provider : String) (url : ParsedUrl) (raw : String),
    M3uLine.stream url raw ∈ lines →
    blockedStreamUrl url allowed_domains →
    ∃ msg, _parse_m3u source_path lines allowed_domains default_provider = .error msg := by
  intro source_path lines allowed_domains default_provider url raw hmem hblocked
  by_cases hne : allowed_domains = []
  · subst hne
    exact ⟨"m3u adapter requires allowed_domains list for official validation", rfl⟩
  · rcases parseM3uGo_error allowed_domains default_provider url raw hne hblocked
      lines hmem initialM3uState with ⟨msg, hgo⟩
    refine ⟨msg, ?_⟩
    have hie : allowed_domains.isEmpty = false := by
      cases allowed_domains with
      | nil => exact absurd rfl hne
      | cons a tl => rfl
    simp only [_parse_m3u, hie, Bool.false_eq_true, if_false]
    rw [hgo]
    rfl

/-- Claim C3, witness: a playlist with one loopback stream URL and a
configured allow-list is rejected. -/
theorem c3_m3u_blocked_url_rejected_witness :
    ∃ msg, _parse_m3u "list.m3u"
      [M3uLine.stream ⟨"http", some "127.0.0.1", "/tv.ts"⟩ "http://127.0.0.1/tv.ts"]
      ["example.com"] "M3U" = .error msg :=
  c3_m3u_blocked_url_rejected "list.m3u"
    [M3uLine.stream ⟨"http", some "127.0.0.1", "/tv.ts"⟩ "http://127.0.0.1/tv.ts"]
    ["example.com"] "M3U" ⟨"http", some "127.0.0.1", "/tv.ts"⟩ "http://127.0.0.1/tv.ts"
    (by decide) (Or.inl (by decide))

end M3u

namespace PyDict

theorem find_set_self {κ α : Type} [BEq κ] [LawfulBEq κ] (d : List (κ × α)) (k : κ) (v : α) :
    find (PyDict.set d k v) k = some v := by
  induction d with
  | nil => simp [PyDict.set, find]
  | cons hd tl ih =>
    obtain ⟨k0, v0⟩ := hd
    by_cases hb : (k0 == k) = true
    · rw [set_cons, if_pos hb, find_cons, if_pos (by simp)]
    · rw [set_cons, if_neg hb, find_cons, if_neg hb]
      exact ih

theorem find_append {κ α : Type} [BEq κ] (d1 d2 : List (κ × α)) (k : κ) :
    find (d1 ++ d2) k =
      match find d1 k with
      | some v => some v
      | none => find d2 k := by
  induction d1 with
  | nil => simp [find]
  | cons hd tl ih =>
    obtain ⟨k0, v0⟩ := hd
    by_cases hb : (k0 == k) = true
    · rw [List.cons_append, find_cons, if_pos hb, find_cons, if_pos hb]
    · rw [List.cons_append, find_cons, if_neg hb, find_cons, if_neg hb]
      exact ih

theorem find_setdefault_self_of_none {κ α : Type} [BEq κ] [LawfulBEq κ]
    {d : List (κ × α)} {k : κ} (v : α) (h : find d k = none) :
    find (setdefault d k v) k = some v := by
  rw [setdefault, h, find_append, h]
  simp [find]

theorem find_setdefault_ne {κ α : Type} [BEq κ] [LawfulBEq κ]
    (d : List (κ × α)) (k k2 : κ) (v : α) (hne : (k == k2) = false) :
    find (setdefault d k v) k2 = find d k2 := by
  rw [setdefault]
  cases hf : find d k with
  | some w => rfl
  | none =>
    rw [find_append]
    cases hf2 : find d k2 with
    | some w => rfl
    | none => simp [find, hne]

end PyDict

namespace Freshness

open PyDateTimeM Converter

/-! Shallow embedding of the staleness gate of `src/e2neutrino/converter.py`
(`_parse_iso_datetime`, `_ensure_fresh_profile`).  Python raises a
`TypeError` when it subtracts an offset-naive timestamp from the aware
`datetime.now(timezone.utc)`; that path is an `Except.error` here.  The
`include_stale` and `stale_after_days` conversion options are passed as
parameters (the `ConversionOptions` dataclass in `src/e2neutrino/models.py`
does not declare them although `converter.py` reads them; their meaning
follows the spec and their use sites).  `now` is the current UTC instant on
the same second scale as `instantSeconds`. -/

/-- Python `value.replace("Z", "+00:00")`. -/
def replaceZ (s : String) : String :=
  String.mk (s.data.foldr
    (fun c acc => if c = 'Z' then '+' :: '0' :: '0' :: ':' :: '0' :: '0' :: acc else c :: acc) [])

/-- Time part of `datetime.fromisoformat`: HH, HH:MM or HH:MM:SS
(fractional seconds are not modelled: a timestamp carrying them counts as
unparseable here). -/
def parseIsoTime (cs : List Char) : Option (Nat × Nat × Nat × List Char) := do
  let (h, r1) ← parse2Digits cs
  if 23 < h then none else
  match r1 with
  | ':' :: r2 => do
    let (mi, r3) ← parse2Digits r2
    if 59 < mi then none else
    match r3 with
    | ':' :: r4 => do
      let (sec, r5) ← parse2Digits r4
      if 59 < sec then none else pure (h, mi, sec, r5)
    | _ => pure (h, mi, 0, r3)
  | _ => pure (h, 0, 0, r1)

/-- Offset part of `datetime.fromisoformat`: +HH:MM or -HH:MM. -/
def parseIsoOffset (cs : List Char) : Option (Option Int × List Char) :=
  match cs with
  | [] => some (none, [])
  | sign :: rest =>
    if sign = '+' ∨ sign = '-' then do
      let (hh, r1) ← parse2Digits rest
      let r2 ← expectCh ':' r1
      let (mm, r3) ← parse2Digits r2
      let total : Int := hh * 60 + mm
      if 1440 ≤ total then none
      else some (some (if sign = '-' then -total else total), r3)
    else none

/-- Embedding of `datetime.fromisoformat` (the strict common subset:
YYYY-MM-DD, optional single separator and HH[:MM[:SS]], optional ±HH:MM). -/
def fromisoformat (s : String) : Option PyDateTime := do
  let (y, r1) ← parse4Digits s.data
  let r2 ← expectCh '-' r1
  let (mo, r3) ← parse2Digits r2
  let r4 ← expectCh '-' r3
  let (d, r5) ← parse2Digits r4
  if mo < 1 ∨ 12 < mo ∨ d < 1 then none else
  match r5 with
  | [] => mkValid y mo d 0 0 0 none
  | _sep :: r6 => do
    let (h, mi, sec, r7) ← parseIsoTime r6
    match r7 with
    | [] => mkValid y mo d h mi sec none
    | _ => do
      let (off, r8) ← parseIsoOffset r7
      if r8 ≠ [] then none else mkValid y mo d h mi sec off

/-- Embedding of `_parse_iso_datetime`. -/
def _parse_iso_datetime (value : Option String) : Option PyDateTime :=
  match value with
  | none => none
  | some s => if s = "" then none else fromisoformat (replaceZ s)

def lower3 (a b c : Char) : String := String.mk [lowerChar a, lowerChar b, lowerChar c]

/-- Field `%a` (strptime matches names case-insensitively). -/
def parseDayAbbr (cs : List Char) : Option (List Char) :=
  match cs with
  | a :: b :: c :: rest =>
    if ["mon", "tue", "wed", "thu", "fri", "sat", "sun"].contains (lower3 a b c) then some rest
    else none
  | _ => none

/-- Field `%b`. -/
def parseMonthAbbr (cs : List Char) : Option (Nat × List Char) :=
  match cs with
  | a :: b :: c :: rest =>
    match find [("jan", 1), ("feb", 2), ("mar", 3), ("apr", 4), ("may", 5), ("jun", 6),
        ("jul", 7), ("aug", 8), ("sep", 9), ("oct", 10), ("nov", 11), ("dec", 12)]
        (lower3 a b c) with
    | some m => some (m, rest)
    | none => none
  | _ => none

/-- Field `%Z` restricted to the universal zone names `strptime` maps to a
zero offset. -/
def parseTzName (cs : List Char) : Option (List Char) :=
  match cs with
  | a :: b :: c :: rest =>
    if ["utc", "gmt"].contains (lower3 a b c) then some rest else none
  | _ => none

/-- Embedding of the RFC 2822 fallback
`datetime.strptime(http_date, "%a, %d %b %Y %H:%M:%S %Z")` followed by
`.replace(tzinfo=timezone.utc)`. -/
def strptimeRfc2822 (s : String) : Option PyDateTime := do
  let r1 ← parseDayAbbr s.data
  let r2 ← expectCh ',' r1
  let r3 ← expectCh ' ' r2
  let (d, r4) ← parse2or1 r3
  if d < 1 ∨ 31 < d then none else do
  let r5 ← expectCh ' ' r4
  let (mo, r6) ← parseMonthAbbr r5
  let r7 ← expectCh ' ' r6
  let (y, r8) ← parse4Digits r7
  let r9 ← expectCh ' ' r8
  let (h, mi, sec, r10) ← parseTimeFields r9
  let r11 ← expectCh ' ' r10
  let r12 ← parseTzName r11
  if r12 ≠ [] then none else mkValid y mo d h mi sec (some 0)

/-- Zero-padded decimal of fixed width. -/
def padNum (w : Nat) (n : Nat) : String :=
  let core := toString n
  String.mk (List.replicate (w - core.data.length) '0') ++ core

/-- Embedding of `datetime.isoformat()` for whole-second values: the date,
a `T`, the time, and for aware values the signed `+HH:MM` offset. -/
def isoformatDt (dt : PyDateTimeM.PyDateTime) : String :=
  let core := padNum 4 dt.year ++ "-" ++ padNum 2 dt.month ++ "-" ++ padNum 2 dt.day
    ++ "T" ++ padNum 2 dt.hour ++ ":" ++ padNum 2 dt.minute ++ ":" ++ padNum 2 dt.second
  match dt.utcOffsetMinutes with
  | none => core
  | some o =>
    let sign := if o < 0 then "-" else "+"
    core ++ sign ++ padNum 2 (o.natAbs / 60) ++ ":" ++ padNum 2 (o.natAbs % 60)

/-- The timestamp `_ensure_fresh_profile` derives from metadata and
provenance: ISO parse of `fetched_at` (metadata first, then provenance),
else ISO parse of `http_date`/`commit_date`, else the RFC 2822 fallback on
the latter. -/
def profileTimestamp (metadata provenance : List (String × String)) : Option PyDateTime :=
  let fetched_at := pyOr (find metadata "fetched_at") (find provenance "fetched_at")
  let http_date := pyOr (find provenance "http_date") (find provenance "commit_date")
  match _parse_iso_datetime fetched_at with
  | some t => some t
  | none =>
    match _parse_iso_datetime http_date with
    | some t => some t
    | none =>
      if pyTruthy http_date then strptimeRfc2822 (http_date.getD "") else none

/-- Embedding of `_ensure_fresh_profile`, returning the updated metadata or
the raised error. -/
def _ensure_fresh_profile (metadata provenance : List (String × String))
    (include_stale : Bool) (stale_after_days : Int) (now : Int) :
    Except String (List (String × String)) :=
  let fetched_at := pyOr (find metadata "fetched_at") (find provenance "fetched_at")
  match profileTimestamp metadata provenance with
  | none =>
    .ok (setdefault (setdefault metadata "last_seen" ((pyOr fetched_at (some "unknown")).getD "unknown"))
      "stale" "unknown")
  | some ts =>
    let md1 := PyDict.set metadata "last_seen" (isoformatDt ts)
    match ts.utcOffsetMinutes with
    | none => .error "TypeError: cannot subtract offset-naive and offset-aware datetimes"
    | some _ =>
      let age := now - instantSeconds ts
      if stale_after_days * 86400 < age then
        if include_stale then .ok (PyDict.set md1 "stale" "true")
        else .error "source data is stale; re-run with --include-stale if this is intended"
      else .ok (PyDict.set md1 "stale" "false")

end Freshness

namespace Freshness

open PyDateTimeM

theorem ensure_fresh_some_aware (metadata provenance : List (String × String))
    {ts : PyDateTime} {off : Int}
    (hts : profileTimestamp metadata provenance = some ts)
    (hoff : ts.utcOffsetMinutes = some off)
    (include_stale : Bool) (stale_after_days now : Int) :
    _ensure_fresh_profile metadata provenance include_stale stale_after_days now =
      (if stale_after_days * 86400 < now - instantSeconds ts then
        if include_stale then
          .ok (PyDict.set (PyDict.set metadata "last_seen" (isoformatDt ts)) "stale" "true")
        else .error "source data is stale; re-run with --include-stale if this is intended"
       else
        .ok (PyDict.set (PyDict.set metadata "last_seen" (isoformatDt ts)) "stale" "false")) := by
  obtain ⟨y, mo, d, hh, mi, sec, o⟩ := ts
  have ho : o = some off := hoff
  subst ho
  simp only [_ensure_fresh_profile]
  rw [hts]

theorem ensure_fresh_none (metadata provenance : List (String × String))
    (include_stale : Bool) (stale_after_days now : Int)
    (hts : profileTimestamp metadata provenance = none) :
    _ensure_fresh_profile metadata provenance include_stale stale_after_days now =
      .ok (setdefault (setdefault metadata "last_seen"
        ((pyOr (pyOr (find metadata "fetched_at") (find provenance "fetched_at"))
          (some "unknown")).getD "unknown")) "stale" "unknown") := by
  simp only [_ensure_fresh_profile]
  rw [hts]

/-- Claim C1, counterexample: the fetch timestamp 2014-01-01 is parseable
(it parses as an offset-naive datetime) and far older than the 120-day
threshold, yet the conversion neither raises the stale `ConversionError`
nor proceeds under `include_stale`; both option settings raise a
`TypeError`, because subtracting the naive timestamp from the aware
`datetime.now(timezone.utc)` is ill-typed in Python. -/
theorem c1_naive_timestamp_counterexample :
    _parse_iso_datetime (some "2014-01-01") = some ⟨2014, 1, 1, 0, 0, 0, none⟩
    ∧ profileTimestamp [("fetched_at", "2014-01-01")] [] = some ⟨2014, 1, 1, 0, 0, 0, none⟩
    ∧ _ensure_fresh_profile [("fetched_at", "2014-01-01")] [] true 120
        (instantSeconds ⟨2025, 1, 1, 0, 0, 0, some 0⟩)
        = .error "TypeError: cannot subtract offset-naive and offset-aware datetimes"
    ∧ _ensure_fresh_profile [("fetched_at", "2014-01-01")] [] false 120
        (instantSeconds ⟨2025, 1, 1, 0, 0, 0, some 0⟩)
        = .error "TypeError: cannot subtract offset-naive and offset-aware datetimes" :=
  ⟨rfl, rfl, rfl, rfl⟩

/-- Claim C1 (amended): when the derived fetch timestamp parses as an
offset-aware datetime and its age exceeds stale_after_days, the gate
raises the stale error under include_stale = false and proceeds with
metadata stale = "true" under include_stale = true; a fresh-enough aware
timestamp proceeds with stale = "false"; an undeterminable timestamp
proceeds and defaults the stale flag to "unknown" (setdefault: an already
present stale flag is kept).  An offset-naive parseable timestamp instead
raises a TypeError (see the counterexample). -/
theorem c1_stale_gate_amended :
    (∀ (metadata provenance : List (String × String)) (stale_after_days now : Int)
       (ts : PyDateTime) (off : Int),
      profileTimestamp metadata provenance = some ts →
      ts.utcOffsetMinutes = some off →
      stale_after_days * 86400 < now - instantSeconds ts →
      (_ensure_fresh_profile metadata provenance false stale_after_days now
        = .error "source data is stale; re-run with --include-stale if this is intended")
      ∧ ∃ md2, _ensure_fresh_profile metadata provenance true stale_after_days now = .ok md2
          ∧ find md2 "stale" = some "true")
    ∧ (∀ (metadata provenance : List (String × String)) (stale_after_days now : Int)
       (ts : PyDateTime) (off : Int) (include_stale : Bool),
      profileTimestamp metadata provenance = some ts →
      ts.utcOffsetMinutes = some off →
      ¬(stale_after_days * 86400 < now - instantSeconds ts) →
      ∃ md2, _ensure_fresh_profile metadata provenance include_stale stale_after_days now
          = .ok md2 ∧ find md2 "stale" = some "false")
    ∧ (∀ (metadata provenance : List (String × String)) (include_stale : Bool)
        (stale_after_days now : Int),
      profileTimestamp metadata provenance = none →
      ∃ md2, _ensure_fresh_profile metadata provenance include_stale stale_after_days now
          = .ok md2
        ∧ (find metadata "stale" = none → find md2 "stale" = some "unknown")) := by
  refine ⟨?_, ?_, ?_⟩
  · intro metadata provenance stale_after_days now ts off hts hoff hage
    rw [ensure_fresh_some_aware metadata provenance hts hoff false stale_after_days now,
      ensure_fresh_some_aware metadata provenance hts hoff true stale_after_days now,
      if_pos hage, if_pos hage]
    exact ⟨rfl, _, rfl, PyDict.find_set_self _ _ _⟩
  · intro metadata provenance stale_after_days now ts off include_stale hts hoff hage
    rw [ensure_fresh_some_aware metadata provenance hts hoff include_stale stale_after_days now,
      if_neg hage]
    exact ⟨_, rfl, PyDict.find_set_self _ _ _⟩
  · intro metadata provenance include_stale stale_after_days now hts
    rw [ensure_fresh_none metadata provenance include_stale stale_after_days now hts]
    refine ⟨_, rfl, ?_⟩
    intro hnone
    have h1 : find (setdefault metadata "last_seen"
        ((pyOr (pyOr (find metadata "fetched_at") (find provenance "fetched_at"))
          (some "unknown")).getD "unknown")) "stale" = none := by
      rw [PyDict.find_setdefault_ne _ _ _ _ (by decide)]
      exact hnone
    exact PyDict.find_setdefault_self_of_none "unknown" h1

/-- Claim C1, witness: an offset-aware fetch timestamp from 2014 against a
2025 clock and a 120-day threshold raises the stale error without the
override. -/
theorem c1_stale_gate_witness :
    _ensure_fresh_profile [("fetched_at", "2014-01-01T00:00:00+00:00")] [] false 120
      (instantSeconds ⟨2025, 1, 1, 0, 0, 0, some 0⟩)
      = .error "source data is stale; re-run with --include-stale if this is intended" := by
  have h := c1_stale_gate_amended
  exact (h.1 [("fetched_at", "2014-01-01T00:00:00+00:00")] [] 120
    (instantSeconds ⟨2025, 1, 1, 0, 0, 0, some 0⟩)
    ⟨2014, 1, 1, 0, 0, 0, some 0⟩ 0 rfl rfl (by decide)).1

end Freshness

namespace Classifier

open Converter

/-! Shallow embedding of the category-classification stage of
`src/e2neutrino/converter.py`.  The regular-expression engine (`re` with
`IGNORECASE`) is the library boundary: a matcher function
`String → String → Bool` stands for `pattern → haystack →
(compiled-pattern.search(haystack) is not None)`, and every theorem holds
for every matcher.  The external override catalogs
(`bouquet_category_patterns.json`, `paytv_networks.json`,
`provider_categories.json`, `radio_category_patterns.json`) are absent from
the repository, so the module-level load functions leave `PAYTV_LOOKUP`,
`PROVIDER_CATEGORY_LOOKUP` and `RADIO_CATEGORY_PATTERNS` empty and the
category order and patterns at their built-in base values. -/

def CATEGORY_ORDER : List String :=
  ["Movies", "Series", "News", "Sports", "Kids", "Music", "Documentary", "Sky", "RTL",
   "ProSiebenSat.1", "ARD/ZDF", "ServusTV", "ORF", "BBC", "RAI", "TF1", "Nederland",
   "Austria", "Switzerland", "Spain", "Italy", "Poland", "PyTV", "Resolution - UHD",
   "Resolution - HD", "Resolution - SD", "Shopping", "Religion", "Adult",
   "International", "Regional", "UHD/4K", "Others"]

def CATEGORY_PATTERNS : List (String × List String) :=
  [("Movies", ["film", "cine", "movie", "cinema"]),
   ("Series", ["serie", "series", "drama"]),
   ("News", ["news", "nachrichten", "journal", "tagesschau"]),
   ("Sports", ["sport", "bundesliga", "uefa", "espn", "sky sport"]),
   ("Kids", ["kinder", "kids", "cartoon", "disney", "junior"]),
   ("Music", ["music", "musik", "mtv", "viva"]),
   ("Documentary", ["doku", "documentary", "history", "geo", "planet", "nat.?geo"]),
   ("Sky", ["sky", "sky sport", "sky cinema", "sky one", "sky showcase"]),
   ("RTL", ["rtl", "nitro", "vox", "ntv", "rtlup"]),
   ("ProSiebenSat.1", ["prosieben", "sat\\\\.1", "kabel ?1", "sixx", "maxx", "puls ?4"]),
   ("ARD/ZDF", ["ard", "zdf", "wdr", "ndr", "mdr", "hr", "swr", "br", "phoenix", "tagesschau"]),
   ("ServusTV", ["servustv", "servus tv"]),
   ("ORF", ["orf", "oe24", "oe1", "oe2", "oe3"]),
   ("BBC", ["bbc", "cbbc", "cbeebies", "bbc world"]),
   ("RAI", ["rai", "italia", "rai sport", "rai movie"]),
   ("TF1", ["tf1", "france", "canal+", "m6"]),
   ("Nederland", ["npo", "rtl ?[45]", "sbs ?6", "veronica", "net ?5", "ziggo"]),
   ("Austria", ["servus", "orf", "atv", "oe24", "krone tv", "puls ?4"]),
   ("Switzerland", ["srf", "schweiz", "swiss", "tele ?z?uri", "3sat ch"]),
   ("Spain", ["espan", "movistar", "antena", "rtve", "tve", "vamos"]),
   ("Italy", ["italia", "mediaset", "tivusat", "canale", "la7", "rai"]),
   ("Poland", ["polonia", "polsat", "tvp", "onet", "canal\\+ pol"]),
   ("PyTV", ["pytv", "py-tv"]),
   ("Shopping", ["shop", "shopping", "kauf", "qvc", "teleshop", "hse"]),
   ("Religion", ["kirche", "church", "gottes", "hope", "bibel", "faith", "islam", "evangel"]),
   ("Adult", ["xxl", "erotik", "adult", "playboy", "hustler", "dorcel", "redlight"]),
   ("International", ["france", "turk", "arab", "ital", "espan", "globe", "world", "bbc", "rai", "bein"]),
   ("Regional", ["regional", "bayern", "berlin", "hamburg", "ndr", "mdr", "rbb", "swr", "hr", "wdr"]),
   ("UHD/4K", ["uhd", "4k", "ultra"]),
   ("Resolution - UHD", []),
   ("Resolution - HD", []),
   ("Resolution - SD", []),
   ("Others", [])]

/-- Empty in this repository: the pay-TV catalog file does not exist. -/
def PAYTV_LOOKUP : List (String × List String) := []

/-- Empty in this repository: the provider-category file does not exist. -/
def PROVIDER_CATEGORY_LOOKUP : List (String × String) := []

/-- Empty in this repository: the radio pattern file does not exist. -/
def RADIO_CATEGORY_PATTERNS : List (String × List String) := []

def RESOLUTION_REGEX : List (String × List String) :=
  [("Resolution - UHD", ["\\buhd\\b", "\\b4k\\b", "ultra\\s*hd", "hdr\\b"]),
   ("Resolution - HD", ["(?<!u)hd\\+?\\b", "full\\s*hd", "high\\s*definition"]),
   ("Resolution - SD", ["\\bsd\\b", "standard\\s*definition"])]

/-- The haystack `_infer_category` matches against. -/
def categoryHaystack (service : Service) : String :=
  service.name ++ " " ++ (service.provider.getD "")

def inferCategoryGo (m : String → String → Bool) (hay : String) : List String → String
  | [] => "Others"
  | c :: rest =>
    if ((find CATEGORY_PATTERNS c).getD []).any (fun p => m p hay) then c
    else inferCategoryGo m hay rest

/-- Embedding of `_infer_category`: the first category of CATEGORY_ORDER
with a matching pattern, defaulting to "Others". -/
def _infer_category (m : String → String → Bool) (service : Service) : String :=
  inferCategoryGo m (categoryHaystack service) CATEGORY_ORDER

/-- Embedding of `_match_paytv_categories` (keyword substring matching over
the pay-TV lookup, which ships empty). -/
def _match_paytv_categories (service : Service) : List String :=
  let name := strLower service.name
  let provider := strLower (service.provider.getD "")
  (PAYTV_LOOKUP.filter (fun entry =>
    entry.2.any (fun keyword => strContains name keyword || strContains provider keyword))).map
    Prod.fst

/-- Embedding of `_match_provider_category` (first substring match over the
provider lookup, which ships empty). -/
def _match_provider_category (service : Service) : Option String :=
  let provider := pyStrip (strLower (service.provider.getD ""))
  if provider = "" then none
  else ((PROVIDER_CATEGORY_LOOKUP.find? (fun entry =>
    entry.1 ≠ "" && strContains provider entry.1)).map Prod.snd)

/-- Loop of `_match_resolution_categories`: skip SD when something already
matched, stop after the first non-SD match. -/
def matchResolutionGo (mr : String → String → Bool) (hay : String) :
    List (String × List String) → List String → List String
  | [], ms => ms
  | (category, regexes) :: rest, ms =>
    if regexes.any (fun p => mr p hay) then
      if category == "Resolution - SD" && !ms.isEmpty then
        matchResolutionGo mr hay rest ms
      else
        let ms2 := ms ++ [category]
        if category != "Resolution - SD" then ms2
        else matchResolutionGo mr hay rest ms2
    else matchResolutionGo mr hay rest ms

/-- Embedding of `_match_resolution_categories`, including the
extra-field fallback. -/
def _match_resolution_categories (mr : String → String → Bool) (service : Service) :
    List String :=
  let hay := strLower (service.name ++ " " ++ (service.provider.getD ""))
  let ms := matchResolutionGo mr hay RESOLUTION_REGEX []
  if ms.isEmpty then
    match find service.extra "resolution" with
    | none => []
    | some v =>
      if v = "" then []
      else
        let value := strUpper v
        if value = "UHD" ∨ value = "4K" then ["Resolution - UHD"]
        else if value = "HD" ∨ value = "FHD" then ["Resolution - HD"]
        else if value = "SD" then ["Resolution - SD"]
        else []
  else ms

/-- Embedding of `_match_radio_categories` (the radio catalog ships empty,
so the early return fires). -/
def _match_radio_categories (m : String → String → Bool) (service : Service) : List String :=
  if RADIO_CATEGORY_PATTERNS.isEmpty then []
  else
    let hay := strLower (service.name ++ " " ++ (service.provider.getD ""))
    (RADIO_CATEGORY_PATTERNS.filter (fun kv => kv.2.any (fun p => m p hay))).map Prod.fst

/-- Embedding of `_service_to_ref`. -/
def _service_to_ref (service : Service) : String :=
  "1:0:" ++ toString service.service_type ++ ":" ++ format04x service.service_id ++ ":"
    ++ format04x service.transport_stream_id ++ ":" ++ format04x service.original_network_id
    ++ ":" ++ M3u.format08x service.namespace_ ++ ":0:0:0:"

/-- Embedding of `_make_entry`. -/
def _make_entry (service : Service) : BouquetEntry :=
  ⟨_service_to_ref service, some service.name⟩

/-- Boolean form of the Python sort key (is_radio, name.lower(),
service_id): a reflexive total preorder, so the stable `insertionSort`
below is the stable Python `sorted`. -/
def svcSortLe (a b : Service) : Bool :=
  if a.is_radio ≠ b.is_radio then (if a.is_radio then false else true)
  else if strLower a.name ≠ strLower b.name then strLtB (strLower a.name) (strLower b.name)
  else a.service_id ≤ b.service_id

end Classifier

namespace Classifier

open Converter

/-- Python `buckets.setdefault(c, []).append(svc)`: append to the bucket in
place if the key exists, else insert the key with a one-element bucket. -/
def bucketAppend (buckets : List (String × List Service)) (c : String) (svc : Service) :
    List (String × List Service) :=
  match find buckets c with
  | some l => PyDict.set buckets c (l ++ [svc])
  | none => buckets ++ [(c, [svc])]

/-- The bucket dict `{category: [] for category in CATEGORY_ORDER}`. -/
def initialBuckets : List (String × List Service) :=
  CATEGORY_ORDER.map (fun c => (c, ([] : List Service)))

/-- State of the classification loop of `_apply_category_bouquets`. -/
structure ClassifyAcc where
  buckets : List (String × List Service)
  radioServices : List Service
  radioBuckets : List (String × List Service)
deriving Repr

/-- One iteration of the classification loop. -/
def classifyStep (m mr : String → String → Bool) (acc : ClassifyAcc) (service : Service) :
    ClassifyAcc :=
  if service.is_radio then
    let rb := (_match_radio_categories m service).foldl
      (fun b c => bucketAppend b c service) acc.radioBuckets
    { acc with radioServices := acc.radioServices ++ [service], radioBuckets := rb }
  else
    let b1 := bucketAppend acc.buckets (_infer_category m service) service
    let b2 := (_match_paytv_categories service).foldl
      (fun b c => bucketAppend b c service) b1
    let b3 := match _match_provider_category service with
      | some c => bucketAppend b2 c service
      | none => b2
    let b4 := (_match_resolution_categories mr service).foldl
      (fun b c => bucketAppend b c service) b3
    { acc with buckets := b4 }

/-- The full classification loop over the sorted service list. -/
def classifyServices (m mr : String → String → Bool) (services : List Service) : ClassifyAcc :=
  services.foldl (classifyStep m mr) ⟨initialBuckets, [], []⟩

/-- Key order for `sorted(radio_category_buckets.items())`: item tuples are
compared lexicographically, so by the (distinct) keys first. -/
def itemLe (a b : String × List Service) : Bool :=
  strLtB a.1 b.1 || a.1 == b.1

/-- Embedding of `_apply_category_bouquets` (the unused `name_map` argument
is dropped), parametrized by the regex matchers `m` (category patterns) and
`mr` (resolution patterns). -/
def _apply_category_bouquets (m mr : String → String → Bool) (profile : Profile) : Profile :=
  let services_sorted := List.insertionSort
    (fun a b => svcSortLe a b = true) (profile.services.map Prod.snd)
  let acc := classifyServices m mr services_sorted
  let general_entries := (services_sorted.filter (fun s => !s.is_radio)).map _make_entry
  let afterGeneral : List Bouquet :=
    if general_entries.isEmpty then []
    else [⟨"General", general_entries, "tv", none⟩]
  let afterCats := CATEGORY_ORDER.foldl (fun bs c =>
    let entries := ((find acc.buckets c).getD []).map _make_entry
    if entries.isEmpty then bs else bs ++ [⟨c, entries, "tv", none⟩]) afterGeneral
  let withRadio :=
    if acc.radioServices.isEmpty then afterCats
    else
      let radio_entries := acc.radioServices.map _make_entry
      let base := afterCats ++ [⟨"Radio", radio_entries, "radio", none⟩]
      (List.insertionSort (fun a b => itemLe a b = true) acc.radioBuckets).foldl
        (fun bs kv =>
          let entries := kv.2.map _make_entry
          if entries.isEmpty then bs else bs ++ [⟨kv.1, entries, "radio", none⟩]) base
  { profile with bouquets := withRadio ++ profile.bouquets }

end Classifier

namespace PyDict

theorem find_set_ne {κ α : Type} [BEq κ] [LawfulBEq κ] (d : List (κ × α)) (k k2 : κ) (v : α)
    (hne : k ≠ k2) : find (PyDict.set d k v) k2 = find d k2 := by
  induction d with
  | nil =>
    simp [PyDict.set, find, beq_eq_false_iff_ne.2 hne]
  | cons hd tl ih =>
    obtain ⟨k0, v0⟩ := hd
    rw [set_cons]
    by_cases h0 : (k0 == k) = true
    · have hk0 : k0 = k := eq_of_beq h0
      subst hk0
      simp [find_cons, beq_eq_false_iff_ne.2 hne]
    · have h0f : (k0 == k) = false := by simpa using h0
      simp only [h0f, Bool.false_eq_true, if_false, find_cons, ih]

end PyDict

namespace Classifier

open Converter

theorem inferCategoryGo_eq_find (m : String → String → Bool) (hay : String) :
    ∀ l : List String, inferCategoryGo m hay l =
      ((l.find? (fun c =>
        ((find CATEGORY_PATTERNS c).getD []).any (fun p => m p hay))).getD "Others") := by
  intro l
  induction l with
  | nil => rfl
  | cons c rest ih =>
    by_cases h : (((find CATEGORY_PATTERNS c).getD []).any (fun p => m p hay)) = true
    · simp [inferCategoryGo, h]
    · simp only [Bool.not_eq_true] at h
      simp [inferCategoryGo, h, ih]

/-- C8: the primary classifier is total: for every regex matcher and every
service, `_infer_category` returns a member of `CATEGORY_ORDER` — exactly
the first category whose pattern list has a match against
"{name} {provider}", defaulting to the terminal "Others" category — so no
service gets zero primary categories and none gets more than one. -/
theorem c8_primary_classifier_total (m : String → String → Bool) (service : Service) :
    _infer_category m service ∈ CATEGORY_ORDER
    ∧ _infer_category m service =
        ((CATEGORY_ORDER.find? (fun c =>
          ((find CATEGORY_PATTERNS c).getD []).any
            (fun p => m p (categoryHaystack service)))).getD "Others")
    ∧ CATEGORY_ORDER.getLast? = some "Others" := by
  have he := inferCategoryGo_eq_find m (categoryHaystack service) CATEGORY_ORDER
  refine ⟨?_, he, by decide⟩
  rw [_infer_category, he]
  cases hf : CATEGORY_ORDER.find? (fun c =>
      ((find CATEGORY_PATTERNS c).getD []).any
        (fun p => m p (categoryHaystack service))) with
  | none =>
    simpa using (by decide : ("Others" : String) ∈ CATEGORY_ORDER)
  | some c =>
    simpa using List.mem_of_find?_eq_some hf

end Classifier

namespace Classifier

open Converter

/-- The pay-TV lookup ships empty, so the secondary pay-TV matcher never
adds a category. -/
theorem paytv_nil (s : Service) : _match_paytv_categories s = [] := rfl

/-- The provider lookup ships empty, so the provider matcher never fires. -/
theorem provider_none (s : Service) : _match_provider_category s = none := by
  unfold _match_provider_category
  simp [PROVIDER_CATEGORY_LOOKUP]

/-- The radio pattern catalog ships empty, so the radio matcher
early-returns the empty list. -/
theorem radio_nil (m : String → String → Bool) (s : Service) :
    _match_radio_categories m s = [] := rfl

/-- A bucket is non-empty (under the missing-key default of `dict.get`). -/
def bucketNE (b : List (String × List Service)) (c : String) : Prop :=
  ((find b c).getD []) ≠ []

theorem bucketNE_bucketAppend_self (b : List (String × List Service)) (c : String)
    (s : Service) : bucketNE (bucketAppend b c s) c := by
  unfold bucketNE bucketAppend
  cases hf : find b c with
  | some l => simp [find_set_self]
  | none =>
    rw [find_append, hf]
    simp [find]

theorem bucketAppend_find_ne {b : List (String × List Service)} {c c2 : String}
    (s : Service) (h : c2 ≠ c) : find (bucketAppend b c s) c2 = find b c2 := by
  unfold bucketAppend
  cases hf : find b c with
  | some l => exact find_set_ne b c c2 (l ++ [s]) (Ne.symm h)
  | none =>
    rw [find_append]
    cases hg : find b c2 with
    | some v => simp
    | none => simp [find, beq_eq_false_iff_ne.2 (Ne.symm h)]

theorem bucketNE_bucketAppend_iff (b : List (String × List Service)) (c c2 : String)
    (s : Service) : bucketNE (bucketAppend b c2 s) c ↔ (bucketNE b c ∨ c = c2) := by
  by_cases h : c = c2
  · subst h
    simp [bucketNE_bucketAppend_self]
  · unfold bucketNE
    rw [bucketAppend_find_ne s h]
    simp [h]

theorem bucketNE_foldl_iff (s : Service) (c : String) :
    ∀ (cats : List String) (b : List (String × List Service)),
      bucketNE (cats.foldl (fun b c0 => bucketAppend b c0 s) b) c ↔
        (bucketNE b c ∨ c ∈ cats) := by
  intro cats
  induction cats with
  | nil => intro b; simp
  | cons c0 rest ih =>
    intro b
    rw [List.foldl_cons, ih, bucketNE_bucketAppend_iff]
    simp [List.mem_cons, or_assoc]

/-- All the ways `_apply_category_bouquets` can put a non-radio service in
the bucket of category `c`. -/
def contributesTv (m mr : String → String → Bool) (s : Service) (c : String) : Prop :=
  _infer_category m s = c ∨ c ∈ _match_paytv_categories s
    ∨ _match_provider_category s = some c ∨ c ∈ _match_resolution_categories mr s

instance (m mr : String → String → Bool) (s : Service) (c : String) :
    Decidable (contributesTv m mr s c) := by
  unfold contributesTv
  infer_instance

theorem bucketNE_step_iff (m mr : String → String → Bool) (acc : ClassifyAcc)
    (s : Service) (c : String) :
    bucketNE (classifyStep m mr acc s).buckets c ↔
      (bucketNE acc.buckets c ∨ (s.is_radio = false ∧ contributesTv m mr s c)) := by
  by_cases hr : s.is_radio
  · simp [classifyStep, hr]
  · have hrf : s.is_radio = false := by simpa using hr
    rw [show (classifyStep m mr acc s).buckets =
        (_match_resolution_categories mr s).foldl (fun b c0 => bucketAppend b c0 s)
          (bucketAppend acc.buckets (_infer_category m s) s) by
      simp [classifyStep, hrf, paytv_nil, provider_none]]
    rw [bucketNE_foldl_iff, bucketNE_bucketAppend_iff]
    unfold contributesTv
    rw [paytv_nil s, provider_none s, hrf]
    constructor
    · rintro ((h | h) | h)
      · exact Or.inl h
      · exact Or.inr ⟨rfl, Or.inl h.symm⟩
      · exact Or.inr ⟨rfl, Or.inr (Or.inr (Or.inr h))⟩
    · rintro (h | ⟨-, (h | h | h | h)⟩)
      · exact Or.inl (Or.inl h)
      · exact Or.inl (Or.inr h.symm)
      · exact absurd h (List.not_mem_nil c)
      · exact absurd h (by simp)
      · exact Or.inr h

theorem bucketNE_foldl_steps (m mr : String → String → Bool) (c : String) :
    ∀ (svcs : List Service) (acc : ClassifyAcc),
      bucketNE (svcs.foldl (classifyStep m mr) acc).buckets c ↔
        (bucketNE acc.buckets c ∨
          ∃ s ∈ svcs, s.is_radio = false ∧ contributesTv m mr s c) := by
  intro svcs
  induction svcs with
  | nil => intro acc; simp
  | cons s rest ih =>
    intro acc
    rw [List.foldl_cons, ih, bucketNE_step_iff]
    constructor
    · rintro ((h | h) | ⟨x, hx, hp⟩)
      · exact Or.inl h
      · exact Or.inr ⟨s, List.mem_cons_self s rest, h⟩
      · exact Or.inr ⟨x, List.mem_cons_of_mem s hx, hp⟩
    · rintro (h | ⟨x, hx, hp⟩)
      · exact Or.inl (Or.inl h)
      · rcases List.mem_cons.1 hx with hx | hx
        · subst hx; exact Or.inl (Or.inr hp)
        · exact Or.inr ⟨x, hx, hp⟩

theorem bucketNE_initial (c : String) : ¬ bucketNE initialBuckets c := by
  unfold bucketNE initialBuckets
  suffices h : ∀ (L : List String),
      ((find (L.map (fun c0 => (c0, ([] : List Service)))) c).getD []) = [] by
    simp [h CATEGORY_ORDER]
  intro L
  induction L with
  | nil => rfl
  | cons a tl ih =>
    by_cases hac : (a == c) = true
    · simp [find, hac]
    · have hf : (a == c) = false := by simpa using hac
      simp [find, hf, ih]

/-- Bucket `c` of the classification loop is non-empty exactly when some
non-radio input service contributes to `c`. -/
theorem classify_bucketNE_iff (m mr : String → String → Bool) (svcs : List Service)
    (c : String) :
    bucketNE (classifyServices m mr svcs).buckets c ↔
      ∃ s ∈ svcs, s.is_radio = false ∧ contributesTv m mr s c := by
  unfold classifyServices
  rw [bucketNE_foldl_steps]
  simp [bucketNE_initial c]

theorem classify_radio_fold (m mr : String → String → Bool) :
    ∀ (svcs : List Service) (acc : ClassifyAcc),
      (svcs.foldl (classifyStep m mr) acc).radioBuckets = acc.radioBuckets
      ∧ (svcs.foldl (classifyStep m mr) acc).radioServices =
          acc.radioServices ++ svcs.filter (fun s => s.is_radio) := by
  intro svcs
  induction svcs with
  | nil => intro acc; simp
  | cons s rest ih =>
    intro acc
    rw [List.foldl_cons]
    have hstep_rb : (classifyStep m mr acc s).radioBuckets = acc.radioBuckets := by
      by_cases hr : s.is_radio <;> simp [classifyStep, hr, radio_nil]
    have hstep_rs : (classifyStep m mr acc s).radioServices =
        acc.radioServices ++ (if s.is_radio then [s] else []) := by
      by_cases hr : s.is_radio <;> simp [classifyStep, hr]
    obtain ⟨ih1, ih2⟩ := ih (classifyStep m mr acc s)
    refine ⟨by rw [ih1, hstep_rb], ?_⟩
    rw [ih2, hstep_rs, List.filter_cons]
    by_cases hr : s.is_radio <;> simp [hr, List.append_assoc]

theorem classify_radioBuckets (m mr : String → String → Bool) (svcs : List Service) :
    (classifyServices m mr svcs).radioBuckets = [] :=
  (classify_radio_fold m mr svcs ⟨initialBuckets, [], []⟩).1

theorem classify_radioServices (m mr : String → String → Bool) (svcs : List Service) :
    (classifyServices m mr svcs).radioServices = svcs.filter (fun s => s.is_radio) :=
  (classify_radio_fold m mr svcs ⟨initialBuckets, [], []⟩).2

end Classifier

namespace Classifier

open Converter PyTuple

/-- The Python sort key of `_apply_category_bouquets`. -/
def svcKey (s : Service) : Int × String × Int :=
  ((if s.is_radio then 1 else 0), strLower s.name, s.service_id)

/-- Strict lexicographic comparison of sort keys (Python tuple `<`). -/
def svcKeyLtB : (Int × String × Int) → (Int × String × Int) → Bool :=
  pairLtB intLtB (pairLtB strLtB intLtB)

theorem svcKeyLtB_irrefl (k : Int × String × Int) : svcKeyLtB k k = false :=
  pairLtB_irrefl intLtB_irrefl
    (fun b => pairLtB_irrefl strLtB_irrefl intLtB_irrefl b) k

theorem svcKeyLtB_trans {a b c : Int × String × Int} (h1 : svcKeyLtB a b = true)
    (h2 : svcKeyLtB b c = true) : svcKeyLtB a c = true := by
  unfold svcKeyLtB at h1 h2 ⊢
  refine pairLtB_trans intLtB_trans (fun x y z hx hy => ?_) h1 h2
  exact pairLtB_trans strLtB_trans intLtB_trans hx hy

theorem svcKeyLtB_conn {a b : Int × String × Int} (h : a ≠ b) :
    svcKeyLtB a b = true ∨ svcKeyLtB b a = true :=
  pairLtB_conn intLtB_conn
    (fun _x _y hx => pairLtB_conn strLtB_conn intLtB_conn hx) h

/-- The boolean `svcSortLe` is the non-strict order of the key tuples:
a key strictly below, or keys equal. -/
theorem svcSortLe_iff (a b : Service) :
    svcSortLe a b = true ↔
      (svcKeyLtB (svcKey a) (svcKey b) = true ∨ svcKey a = svcKey b) := by
  unfold svcSortLe svcKey svcKeyLtB pairLtB intLtB
  by_cases h1 : a.is_radio = b.is_radio
  · have hra : (if a.is_radio then (1 : Int) else 0) = (if b.is_radio then 1 else 0) := by
      rw [h1]
    by_cases h2 : strLower a.name = strLower b.name
    · simp [h1, h2, hra, strLtB_irrefl, Prod.ext_iff]
      omega
    · simp [h1, h2, hra, strLtB_irrefl, Prod.ext_iff]
  · by_cases ha : a.is_radio
    · have hb : b.is_radio = false := by
        cases hcb : b.is_radio
        · rfl
        · exact absurd (ha.symm ▸ hcb.symm ▸ rfl) h1
      simp [h1, ha, hb, Prod.ext_iff]
    · have haf : a.is_radio = false := by simpa using ha
      have hb : b.is_radio = true := by
        cases hcb : b.is_radio
        · exact absurd (haf.symm ▸ hcb.symm ▸ rfl) h1
        · rfl
      simp [h1, haf, hb, Prod.ext_iff]

theorem svcSortLe_total (a b : Service) : svcSortLe a b = true ∨ svcSortLe b a = true := by
  by_cases h : svcKey a = svcKey b
  · exact Or.inl ((svcSortLe_iff a b).2 (Or.inr h))
  · rcases svcKeyLtB_conn h with hc | hc
    · exact Or.inl ((svcSortLe_iff a b).2 (Or.inl hc))
    · exact Or.inr ((svcSortLe_iff b a).2 (Or.inl hc))

theorem svcSortLe_trans_thm (a b c : Service) (h1 : svcSortLe a b = true)
    (h2 : svcSortLe b c = true) : svcSortLe a c = true := by
  rcases (svcSortLe_iff a b).1 h1 with hab | hab <;>
    rcases (svcSortLe_iff b c).1 h2 with hbc | hbc
  · exact (svcSortLe_iff a c).2 (Or.inl (svcKeyLtB_trans hab hbc))
  · refine (svcSortLe_iff a c).2 (Or.inl ?_)
    rw [← hbc]
    exact hab
  · refine (svcSortLe_iff a c).2 (Or.inl ?_)
    rw [hab]
    exact hbc
  · exact (svcSortLe_iff a c).2 (Or.inr (hab.trans hbc))

instance : IsTotal Service (fun a b => svcSortLe a b = true) := ⟨svcSortLe_total⟩

instance : IsTrans Service (fun a b => svcSortLe a b = true) :=
  ⟨svcSortLe_trans_thm⟩

theorem isEmpty_map_eq {α β : Type} (f : α → β) (l : List α) :
    (l.map f).isEmpty = l.isEmpty := by
  cases l <;> rfl

theorem perm_isEmpty {α : Type} {l1 l2 : List α} (h : l1.Perm l2) :
    l1.isEmpty = l2.isEmpty := by
  have hlen := h.length_eq
  cases l1 <;> cases l2 <;> simp_all

theorem foldl_skip_empty {α β : Type} (p : α → Bool) (g : α → β) :
    ∀ (l : List α) (bs : List β),
      l.foldl (fun bs c => if p c then bs else bs ++ [g c]) bs
        = bs ++ (l.filter (fun c => !p c)).map g := by
  intro l
  induction l with
  | nil => intro bs; simp
  | cons c tl ih =>
    intro bs
    rw [List.foldl_cons, List.filter_cons]
    by_cases hp : p c
    · simp [hp, ih bs]
    · simp only [hp, Bool.false_eq_true, if_false, Bool.not_false, if_true,
        List.map_cons, ih (bs ++ [g c])]
      simp [List.append_assoc]

theorem bool_eq_of_iff {a b : Bool} (h : a = true ↔ b = true) : a = b := by
  cases a <;> cases b <;> simp_all

end Classifier

namespace Classifier

open Converter

theorem apply_decomp (m mr : String → String → Bool) (p : Profile) (srt : List Service)
    (acc : ClassifyAcc)
    (hsrt : List.insertionSort (fun a b => svcSortLe a b = true) (p.services.map Prod.snd) = srt)
    (hacc : classifyServices m mr srt = acc)
    (hrb : acc.radioBuckets = []) :
    (_apply_category_bouquets m mr p).bouquets =
      ((if ((srt.filter (fun s => !s.is_radio)).map _make_entry).isEmpty then []
         else [⟨"General", (srt.filter (fun s => !s.is_radio)).map _make_entry, "tv", none⟩])
       ++ (CATEGORY_ORDER.filter
            (fun c => !(((find acc.buckets c).getD []).map _make_entry).isEmpty)).map
            (fun c => (⟨c, ((find acc.buckets c).getD []).map _make_entry, "tv", none⟩ : Bouquet))
       ++ (if acc.radioServices.isEmpty then []
           else [⟨"Radio", acc.radioServices.map _make_entry, "radio", none⟩]))
      ++ p.bouquets := by
  simp only [_apply_category_bouquets]
  rw [hsrt, hacc, hrb]
  rw [foldl_skip_empty (fun c => (((find acc.buckets c).getD []).map _make_entry).isEmpty)
      (fun c => (⟨c, ((find acc.buckets c).getD []).map _make_entry, "tv", none⟩ : Bouquet))]
  by_cases hre : acc.radioServices.isEmpty
  · simp [hre, List.append_assoc]
  · simp [hre, List.append_assoc, List.insertionSort]

/-- C9: for every regex matcher pair and every profile, the classification
stage rebuilds the bouquet list as: one "General" bouquet first (present
exactly when a non-radio service exists, holding exactly the non-radio
services stable-sorted by (is_radio, lowercased name, service id)), then
one "tv" bouquet per category in catalog order, exactly for the categories
some non-radio service contributes an entry to, then a "Radio" bouquet
exactly when radio services exist (the radio sub-category catalog ships
empty in this repository, so no radio sub-bouquets are ever synthesized),
and finally every pre-existing bouquet unmodified in its original order. -/
theorem c9_bouquet_synthesis_order (m mr : String → String → Bool) (profile : Profile) :
    ∃ synth : List Bouquet,
      (_apply_category_bouquets m mr profile).bouquets = synth ++ profile.bouquets
      ∧ synth.map Bouquet.name =
          (if ((profile.services.map Prod.snd).filter (fun s => !s.is_radio)).isEmpty then []
            else ["General"])
          ++ CATEGORY_ORDER.filter (fun c =>
              (profile.services.map Prod.snd).any
                (fun s => !s.is_radio && decide (contributesTv m mr s c)))
          ++ (if ((profile.services.map Prod.snd).filter (fun s => s.is_radio)).isEmpty then []
              else ["Radio"])
      ∧ (((profile.services.map Prod.snd).filter (fun s => !s.is_radio)).isEmpty = false →
          ∃ l : List Service,
            synth.head? = some ⟨"General", l.map _make_entry, "tv", none⟩
            ∧ l.Perm ((profile.services.map Prod.snd).filter (fun s => !s.is_radio))
            ∧ l.Pairwise (fun a b => svcSortLe a b = true)) := by
  have hperm := List.perm_insertionSort (fun a b => svcSortLe a b = true)
    (profile.services.map Prod.snd)
  refine ⟨_, apply_decomp m mr profile
      (List.insertionSort (fun a b => svcSortLe a b = true) (profile.services.map Prod.snd))
      (classifyServices m mr
        (List.insertionSort (fun a b => svcSortLe a b = true) (profile.services.map Prod.snd)))
      rfl rfl (classify_radioBuckets m mr _), ?_, ?_⟩
  all_goals
    set srt := List.insertionSort (fun a b => svcSortLe a b = true)
      (profile.services.map Prod.snd) with hsrt
  all_goals
    set acc := classifyServices m mr srt with hacc
  · -- names
    have hfilt_nr : (srt.filter (fun s => !s.is_radio)).isEmpty
        = ((profile.services.map Prod.snd).filter (fun s => !s.is_radio)).isEmpty :=
      perm_isEmpty (hperm.filter _)
    have hfilt_r : (srt.filter (fun s => s.is_radio)).isEmpty
        = ((profile.services.map Prod.snd).filter (fun s => s.is_radio)).isEmpty :=
      perm_isEmpty (hperm.filter _)
    have hrs : acc.radioServices = srt.filter (fun s => s.is_radio) :=
      classify_radioServices m mr srt
    rw [List.map_append, List.map_append]
    have hgen : (if ((srt.filter (fun s => !s.is_radio)).map _make_entry).isEmpty then
          ([] : List Bouquet)
        else [⟨"General", (srt.filter (fun s => !s.is_radio)).map _make_entry, "tv", none⟩]).map
          Bouquet.name
        = (if ((profile.services.map Prod.snd).filter (fun s => !s.is_radio)).isEmpty then []
            else ["General"]) := by
      rw [isEmpty_map_eq, hfilt_nr]
      by_cases h : ((profile.services.map Prod.snd).filter (fun s => !s.is_radio)).isEmpty
        <;> simp [h]
    have hcat : ((CATEGORY_ORDER.filter
          (fun c => !(((find acc.buckets c).getD []).map _make_entry).isEmpty)).map
          (fun c => (⟨c, ((find acc.buckets c).getD []).map _make_entry, "tv", none⟩ : Bouquet))).map
            Bouquet.name
        = CATEGORY_ORDER.filter (fun c =>
            (profile.services.map Prod.snd).any
              (fun s => !s.is_radio && decide (contributesTv m mr s c))) := by
      rw [List.map_map]
      have hid : (Bouquet.name ∘ fun c =>
          (⟨c, ((find acc.buckets c).getD []).map _make_entry, "tv", none⟩ : Bouquet)) =
          fun c => c := rfl
      rw [hid, List.map_id']
      refine List.filter_congr ?_
      intro c _
      refine bool_eq_of_iff ?_
      rw [isEmpty_map_eq]
      constructor
      · intro h
        have hne : bucketNE acc.buckets c := by
          simp only [Bool.not_eq_true'] at h
          simpa [bucketNE] using (List.isEmpty_eq_false.1 h)
        obtain ⟨s, hmem, hnr, hctv⟩ := (classify_bucketNE_iff m mr srt c).1 (hacc ▸ hne)
        refine List.any_eq_true.2 ⟨s, hperm.mem_iff.1 hmem, ?_⟩
        simp [hnr, hctv]
      · intro h
        obtain ⟨s, hmem, hs⟩ := List.any_eq_true.1 h
        have hs2 : s.is_radio = false ∧ contributesTv m mr s c := by
          simpa using hs
        have hnr : s.is_radio = false := hs2.1
        have hctv : contributesTv m mr s c := hs2.2
        have hne : bucketNE acc.buckets c := by
          rw [hacc]
          exact (classify_bucketNE_iff m mr srt c).2 ⟨s, hperm.mem_iff.2 hmem, hnr, hctv⟩
        simp only [Bool.not_eq_true']
        exact List.isEmpty_eq_false.2 (by simpa [bucketNE] using hne)
    have hradio : (if acc.radioServices.isEmpty then ([] : List Bouquet)
          else [⟨"Radio", acc.radioServices.map _make_entry, "radio", none⟩]).map Bouquet.name
        = (if ((profile.services.map Prod.snd).filter (fun s => s.is_radio)).isEmpty then []
            else ["Radio"]) := by
      rw [hrs, hfilt_r]
      by_cases h : ((profile.services.map Prod.snd).filter (fun s => s.is_radio)).isEmpty
        <;> simp [h]
    rw [hgen, hcat, hradio]
  · -- head characterization
    intro hne
    have hfilt_nr : (srt.filter (fun s => !s.is_radio)).isEmpty
        = ((profile.services.map Prod.snd).filter (fun s => !s.is_radio)).isEmpty :=
      perm_isEmpty (hperm.filter _)
    refine ⟨srt.filter (fun s => !s.is_radio), ?_, hperm.filter _, ?_⟩
    · have hc : ((srt.filter (fun s => !s.is_radio)).map _make_entry).isEmpty = false := by
        rw [isEmpty_map_eq, hfilt_nr]
        exact hne
      simp [hc]
    · have hsorted : List.Pairwise (fun a b => svcSortLe a b = true) srt :=
        List.sorted_insertionSort (fun a b => svcSortLe a b = true)
          (profile.services.map Prod.snd)
      exact List.Pairwise.sublist (List.filter_sublist srt) hsorted

end Classifier
